import Mathlib

/-!
A shallow embedding of csnake, `src/main.c`.

The simulation core of the snake game (`init_game_state`, `move_snake`,
`grow_snake`, `remove_apple_at_head`, `spawn_random_apple`, `reset_game`,
`compute_difficulty`) as Lean functions over an explicit game state.

Modelling conventions.

* C `int` values are `Int`; the additions and subtractions the code performs
  on them are checked against the `int` range and an overflow is a `Fault`
  (signed overflow is undefined in C).
* `Cell grid[GRID_HEIGHT][GRID_WIDTH]` is a map from `(row, column)` to
  `Cell`; every read and write of the source goes through `grid_read` /
  `grid_write`, which fault with `Fault.outOfRange` outside the array.
* A dynamic array `List` (`items`, `count`) is the Lean list of its first
  `count` items; `da_append` is append at the end (allocation is assumed to
  succeed, the capacity is not modelled).
* `float` values (`game_speed`, the movement timer, frame times) are exact
  rationals; floating-point rounding is not modelled.
* The random source is the list of raw values it will hand out;
  `GetRandomValue lo hi` reduces a raw value into `[lo, hi]`.  A rejection
  loop that exhausts the list faults with `Fault.noDraws`.
-/

namespace CSnake

/-! ## Constants and data model -/

def WINDOW_WIDTH : Int := 800
def WINDOW_HEIGHT : Int := 600
def GRID_SIZE : Int := 20
def GRID_WIDTH : Int := WINDOW_WIDTH / GRID_SIZE
def GRID_HEIGHT : Int := WINDOW_HEIGHT / GRID_SIZE
def INITIAL_APPLES : Nat := 1
def INT_MAX : Int := 2147483647
def INT_MIN : Int := -2147483648

structure IVector2 where
  x : Int
  y : Int
deriving DecidableEq, Repr

structure Cell where
  has_apple : Bool
  has_body : Bool
  has_snake : Bool
deriving DecidableEq, Repr

def Cell.set_apple (b : Bool) (c : Cell) : Cell := { c with has_apple := b }
def Cell.set_body (b : Bool) (c : Cell) : Cell := { c with has_body := b }
def Cell.set_snake (b : Bool) (c : Cell) : Cell := { c with has_snake := b }

/-- The array `grid[GRID_HEIGHT][GRID_WIDTH]`, indexed row first: `g y x`. -/
abbrev Grid := Int → Int → Cell

/-- Values of `enum Direction`, passed to `move_snake` as a C `int`. -/
def RIGHT : Int := 0
def LEFT : Int := 1
def UP : Int := 2
def DOWN : Int := 3

structure Snake where
  head : IVector2
  body : List IVector2
  direction : IVector2

structure GameState where
  grid : Grid
  snake : Snake
  apples : List IVector2
  game_speed : ℚ
  score : Int

/-- Ways in which an execution leaves defined behaviour or fails to return. -/
inductive Fault where
  | outOfRange (x y : Int)
  | overflow
  | noDraws
deriving DecidableEq, Repr

/-! ## Primitive operations -/

/-- Index `[y][x]` lies inside `grid[GRID_HEIGHT][GRID_WIDTH]`. -/
def in_grid (x y : Int) : Prop :=
  0 ≤ x ∧ x < GRID_WIDTH ∧ 0 ≤ y ∧ y < GRID_HEIGHT

instance (x y : Int) : Decidable (in_grid x y) := by
  unfold in_grid; infer_instance

def grid_read (g : Grid) (x y : Int) : Except Fault Cell :=
  if in_grid x y then .ok (g y x) else .error (.outOfRange x y)

/-- The grid after the store `grid[y][x] = f (grid[y][x])`. -/
def grid_upd (g : Grid) (x y : Int) (f : Cell → Cell) : Grid :=
  fun y' x' => if y' = y ∧ x' = x then f (g y x) else g y' x'

def grid_write (g : Grid) (x y : Int) (f : Cell → Cell) : Except Fault Grid :=
  if in_grid x y then .ok (grid_upd g x y f) else .error (.outOfRange x y)

def int_add (a b : Int) : Except Fault Int :=
  if INT_MIN ≤ a + b ∧ a + b ≤ INT_MAX then .ok (a + b) else .error .overflow

def int_sub (a b : Int) : Except Fault Int :=
  if INT_MIN ≤ a - b ∧ a - b ≤ INT_MAX then .ok (a - b) else .error .overflow

/-- Contract of raylib `GetRandomValue(lo, hi)`: a value in `[lo, hi]`,
obtained here from the raw value `raw` of the random source. -/
def GetRandomValue (lo hi : Int) (raw : Nat) : Int :=
  lo + (raw : Int) % (hi - lo + 1)

/-- The empty grid written by the clearing loops of `init_game_state`. -/
def cleared_grid : Grid := fun _ _ => ⟨false, false, false⟩

/-! ## `init_game_state` -/

/-- The `do ... while (has_snake || has_apple)` loop of `init_game_state`. -/
def init_apple_pick (g : Grid) : List Nat → Except Fault (IVector2 × List Nat)
  | rx :: ry :: rest => do
      let x := GetRandomValue 0 (GRID_WIDTH - 1) rx
      let y := GetRandomValue 0 (GRID_HEIGHT - 1) ry
      let c ← grid_read g x y
      if c.has_snake || c.has_apple then init_apple_pick g rest
      else pure (⟨x, y⟩, rest)
  | _ => .error .noDraws

/-- The `for (i = 0; i < INITIAL_APPLES; i++)` loop; `n` iterations remain. -/
def init_apples : Nat → GameState → List Nat → Except Fault (GameState × List Nat)
  | 0, gs, rng => pure (gs, rng)
  | n + 1, gs, rng => do
      let (apple, rng1) ← init_apple_pick gs.grid rng
      let g ← grid_write gs.grid apple.x apple.y (Cell.set_apple true)
      init_apples n { gs with grid := g, apples := gs.apples ++ [apple] } rng1

/-- Every field of `*gs` is overwritten by `init_game_state`, so the result
depends only on the random draws. -/
def init_game_state : List Nat → Except Fault (GameState × List Nat)
  | rx :: ry :: rng => do
      let snake_head : IVector2 :=
        ⟨GetRandomValue 0 (GRID_WIDTH - 1) rx, GetRandomValue 0 (GRID_HEIGHT - 1) ry⟩
      let g ← grid_write cleared_grid snake_head.x snake_head.y (Cell.set_snake true)
      let gs : GameState :=
        { grid := g
          snake := { head := snake_head, body := [], direction := ⟨1, 0⟩ }
          apples := []
          game_speed := 1 / 5
          score := 0 }
      init_apples INITIAL_APPLES gs rng
  | _ => .error .noDraws

/-! ## Apples -/

def same_cell (a b : IVector2) : Bool := a.x == b.x && a.y == b.y

def snake_eats_apple (gs : GameState) : Bool :=
  gs.apples.any (fun apple => same_cell gs.snake.head apple)

/-- The first matching apple is overwritten by the last item and the count
is decremented; the head cell loses its `has_apple` flag. -/
def remove_apple_at_head (gs : GameState) : Except Fault GameState :=
  let head := gs.snake.head
  match gs.apples.findIdx? (fun apple => same_cell apple head) with
  | none => pure gs
  | some i => do
      let last := gs.apples.getD (gs.apples.length - 1) head
      let items := (gs.apples.set i last).take (gs.apples.length - 1)
      let g ← grid_write gs.grid head.x head.y (Cell.set_apple false)
      pure { gs with grid := g, apples := items }

/-- The `do ... while (has_snake || has_body || has_apple)` loop of
`spawn_random_apple`. -/
def spawn_pick (g : Grid) : List Nat → Except Fault (IVector2 × List Nat)
  | rx :: ry :: rest => do
      let x := GetRandomValue 0 (GRID_WIDTH - 1) rx
      let y := GetRandomValue 0 (GRID_HEIGHT - 1) ry
      let c ← grid_read g x y
      if c.has_snake || c.has_body || c.has_apple then spawn_pick g rest
      else pure (⟨x, y⟩, rest)
  | _ => .error .noDraws

/-- The loop `for (i = 0; i < count - 1; i++) items[i] = items[i + 1]`,
with `k` iterations remaining and loop variable `i`. -/
def evict_loop : Nat → Nat → List IVector2 → List IVector2
  | 0, _, items => items
  | k + 1, i, items =>
      evict_loop k (i + 1) (items.set i (items.getD (i + 1) ⟨0, 0⟩))

def spawn_random_apple (gs : GameState) (rng : List Nat) :
    Except Fault (GameState × List Nat) := do
  let (newApple, rng1) ← spawn_pick gs.grid rng
  let g1 ← grid_write gs.grid newApple.x newApple.y (Cell.set_apple true)
  let items := gs.apples ++ [newApple]
  if items.length > 20 then
    let oldest := items.getD 0 newApple
    let g2 ← grid_write g1 oldest.x oldest.y (Cell.set_apple false)
    let shifted := evict_loop (items.length - 1) 0 items
    pure ({ gs with grid := g2, apples := shifted.take (items.length - 1) }, rng1)
  else
    pure ({ gs with grid := g1, apples := items }, rng1)

/-! ## Snake -/

def grow_snake (gs : GameState) : Except Fault GameState :=
  if gs.snake.body.length = 0 then do
    let tx ← int_sub gs.snake.head.x gs.snake.direction.x
    let ty ← int_sub gs.snake.head.y gs.snake.direction.y
    let newTail : IVector2 := ⟨tx, ty⟩
    let body := gs.snake.body ++ [newTail]
    let g ← grid_write gs.grid newTail.x newTail.y (Cell.set_body true)
    pure { gs with grid := g, snake := { gs.snake with body := body } }
  else do
    let tail := gs.snake.body.getD (gs.snake.body.length - 1) gs.snake.head
    let body := gs.snake.body ++ [tail]
    let g ← grid_write gs.grid tail.x tail.y (Cell.set_body true)
    pure { gs with grid := g, snake := { gs.snake with body := body } }

def snake_collides_with_body (gs : GameState) : Bool :=
  gs.snake.body.any (fun segment => same_cell segment gs.snake.head)

/-- Result of `reset_game`: the timer is zeroed, both lists are emptied, the
score is zeroed and `init_game_state` rebuilds the state. -/
def reset_game (_gs : GameState) (rng : List Nat) :
    Except Fault (GameState × ℚ × List Nat) := do
  let (gs1, rng1) ← init_game_state rng
  pure (gs1, 0, rng1)

/-- The `switch (dir)` of `move_snake`; a value outside the enumeration
matches no case and leaves the direction as it is. -/
def set_direction (dir : Int) (gs : GameState) : GameState :=
  if dir = RIGHT then { gs with snake := { gs.snake with direction := ⟨1, 0⟩ } }
  else if dir = LEFT then { gs with snake := { gs.snake with direction := ⟨-1, 0⟩ } }
  else if dir = UP then { gs with snake := { gs.snake with direction := ⟨0, -1⟩ } }
  else if dir = DOWN then { gs with snake := { gs.snake with direction := ⟨0, 1⟩ } }
  else gs

/-- The four wrap-around tests of `move_snake`, in source order. -/
def wrap_head (h : IVector2) : IVector2 :=
  let x1 := if h.x < 0 then GRID_WIDTH - 1 else h.x
  let x2 := if x1 ≥ GRID_WIDTH then 0 else x1
  let y1 := if h.y < 0 then GRID_HEIGHT - 1 else h.y
  let y2 := if y1 ≥ GRID_HEIGHT then 0 else y1
  ⟨x2, y2⟩

/-- Steps 2) and 3) of `move_snake`: clear the old head cell, add the
direction, wrap, mark the new head cell. -/
def move_head (gs : GameState) : Except Fault GameState := do
  let oldHead := gs.snake.head
  let g1 ← grid_write gs.grid oldHead.x oldHead.y (Cell.set_snake false)
  let hx ← int_add oldHead.x gs.snake.direction.x
  let hy ← int_add oldHead.y gs.snake.direction.y
  let newHead := wrap_head ⟨hx, hy⟩
  let g2 ← grid_write g1 newHead.x newHead.y (Cell.set_snake true)
  pure { gs with grid := g2, snake := { gs.snake with head := newHead } }

/-- The loop `for (i = count - 1; i > 0; i--) items[i] = items[i - 1]`,
entered with loop variable `i`. -/
def shift_loop : Nat → List IVector2 → List IVector2
  | 0, items => items
  | i + 1, items => shift_loop i (items.set (i + 1) (items.getD i ⟨0, 0⟩))

/-- Step 4) of `move_snake`: shift the segments and mark the front cell. -/
def shift_body (oldHead : IVector2) (gs : GameState) : Except Fault GameState :=
  if gs.snake.body.length > 0 then do
    let items := (shift_loop (gs.snake.body.length - 1) gs.snake.body).set 0 oldHead
    let front := items.getD 0 oldHead
    let g ← grid_write gs.grid front.x front.y (Cell.set_body true)
    pure { gs with grid := g, snake := { gs.snake with body := items } }
  else pure gs

/-- Step 5) of `move_snake`, taken when `ateApple` is true. -/
def eat_apple (gs : GameState) (rng : List Nat) : Except Fault (GameState × List Nat) := do
  let gs1 ← grow_snake gs
  let gs2 ← remove_apple_at_head gs1
  let (gs3, rng1) ← spawn_random_apple gs2 rng
  let score ← int_add gs3.score 1
  pure ({ gs3 with score := score }, rng1)

/-- What one call of `move_snake` leaves behind: the state, the value of
`*time_since_last_move`, and the two branch conditions of the gated block
(`ateApple`, and whether `snake_collides_with_body` sent it to `reset_game`). -/
structure TickResult where
  gs : GameState
  timer : ℚ
  moved : Bool
  ateApple : Bool
  collided : Bool

/-- Steps 4) and 5) of the guarded block of `move_snake` and its closing
collision test, entered after the head has moved from `oldHead`. -/
def finish_step (oldHead : IVector2) (gs1 : GameState) (rng : List Nat) :
    Except Fault TickResult := do
  let gs2 ← shift_body oldHead gs1
  let ateApple := snake_eats_apple gs2
  let (gs3, rng1) ← if ateApple then eat_apple gs2 rng else pure (gs2, rng)
  if snake_collides_with_body gs3 then
    let (gs4, t, _) ← reset_game gs3 rng1
    pure ⟨gs4, t, true, ateApple, true⟩
  else
    pure ⟨gs3, 0, true, ateApple, false⟩

/-- The block guarded by `*time_since_last_move >= gs->game_speed`. -/
def grid_step (gs : GameState) (rng : List Nat) : Except Fault TickResult := do
  let oldHead := gs.snake.head
  let gs1 ← move_head gs
  finish_step oldHead gs1 rng

/-- One call `move_snake(gs, dir, &time_since_last_move)` during which
`GetFrameTime()` returns `frame`. -/
def move_snake (gs : GameState) (dir : Int) (time_since_last_move frame : ℚ)
    (rng : List Nat) : Except Fault TickResult :=
  let gs0 := set_direction dir gs
  let t := time_since_last_move + frame
  if t ≥ gs0.game_speed then grid_step gs0 rng
  else pure ⟨gs0, t, false, false, false⟩

/-! ## `compute_difficulty` -/

/-- A `float` read as an exact rational, or one of the two infinities that a
division by zero produces. -/
inductive FloatQ where
  | fin (q : ℚ)
  | posInf
  | negInf
deriving DecidableEq

def fminf : FloatQ → FloatQ → FloatQ
  | .negInf, _ => .negInf
  | _, .negInf => .negInf
  | .posInf, b => b
  | a, .posInf => a
  | .fin p, .fin q => .fin (min p q)

def fmaxf : FloatQ → FloatQ → FloatQ
  | .posInf, _ => .posInf
  | _, .posInf => .posInf
  | .negInf, b => b
  | a, .negInf => a
  | .fin p, .fin q => .fin (max p q)

/-- The quotient `a / b` of a positive `a`: a zero divisor gives an infinity
with the sign of that zero (`negZero` is its sign bit). -/
def float_div (a b : ℚ) (negZero : Bool) : FloatQ :=
  if b = 0 then (if negZero then .negInf else .posInf) else .fin (a / b)

/-- The value stored into `*game_speed`.  The three multipliers are exact;
a multiplier that is zero is `+0` (it is a sum `1 + (-1)`), so the sign of a
zero product is the exclusive or of the signs of the factors. -/
def compute_difficulty (game_time : ℚ) (score snake_size : Int) : FloatQ :=
  let base_speed : ℚ := 1 / 5
  let time_multiplier : ℚ := 1 + game_time * (1 / 100)
  let score_multiplier : ℚ := 1 + (score : ℚ) * (1 / 50)
  let size_multiplier : ℚ := 1 + (snake_size : ℚ) * (1 / 20)
  let difficulty_multiplier := time_multiplier * score_multiplier * size_multiplier
  let negZero :=
    xor (xor (decide (time_multiplier < 0)) (decide (score_multiplier < 0)))
      (decide (size_multiplier < 0))
  let new_speed := float_div base_speed difficulty_multiplier negZero
  let MIN_SPEED : ℚ := 1 / 20
  let MAX_SPEED : ℚ := 1
  fmaxf (.fin MIN_SPEED) (fminf new_speed (.fin MAX_SPEED))

/-! ## Runs of the main loop -/

/-- States of the main loop: `Reach gs t` holds when `gs` with movement timer
`t` arises from `init_game_state` by calls of `move_snake` and by the
periodic `compute_difficulty(game_time, gs.score, gs.snake.body.count + 1,
&gs.game_speed)` of `main`. -/
inductive Reach : GameState → ℚ → Prop where
  | init (rng rest : List Nat) (gs : GameState) :
      init_game_state rng = .ok (gs, rest) → Reach gs 0
  | tick (gs : GameState) (t : ℚ) (dir : Int) (frame : ℚ) (rng : List Nat)
      (r : TickResult) :
      Reach gs t → move_snake gs dir t frame rng = .ok r → Reach r.gs r.timer
  | difficulty (gs : GameState) (t game_time speed : ℚ) :
      Reach gs t →
      compute_difficulty game_time gs.score (gs.snake.body.length + 1) = .fin speed →
      Reach { gs with game_speed := speed } t

/-- One call of `move_snake` by the main loop: the command, the frame time
and the raw values the random source hands out during the call. -/
structure TickInput where
  dir : Int
  frame : ℚ
  rng : List Nat

/-- The calls of `move_snake` made for the inputs in turn, with what each
call left behind. -/
def run_ticks (gs : GameState) (t : ℚ) : List TickInput → Except Fault (List TickResult)
  | [] => pure []
  | i :: rest => do
      let r ← move_snake gs i.dir t i.frame i.rng
      let rs ← run_ticks r.gs r.timer rest
      pure (r :: rs)

/-- The state after a run: that of the last call, or the start state. -/
def final_state (gs : GameState) (trace : List TickResult) : GameState :=
  match trace.getLast? with
  | some r => r.gs
  | none => gs

/-! ## Predicates used in the statements -/

def unit_dir (d : IVector2) : Prop :=
  d = ⟨1, 0⟩ ∨ d = ⟨-1, 0⟩ ∨ d = ⟨0, -1⟩ ∨ d = ⟨0, 1⟩

instance (d : IVector2) : Decidable (unit_dir d) := by
  unfold unit_dir; infer_instance

/-- The cell one grid step from `h` in direction `d` on the torus. -/
def next_cell (h d : IVector2) : IVector2 :=
  ⟨(h.x + d.x) % GRID_WIDTH, (h.y + d.y) % GRID_HEIGHT⟩

/-- Every position of the state is a grid index and the direction is one of
the four unit vectors. -/
structure WellFormed (gs : GameState) : Prop where
  head_in : in_grid gs.snake.head.x gs.snake.head.y
  dir_unit : unit_dir gs.snake.direction
  body_in : ∀ b ∈ gs.snake.body, in_grid b.x b.y
  apples_in : ∀ a ∈ gs.apples, in_grid a.x a.y

/-- The state between steps 4) and 5) of `move_snake`: head moved and marked,
segments shifted, front cell marked. -/
def moved_state (gs : GameState) : GameState :=
  let h := gs.snake.head
  let n := next_cell h gs.snake.direction
  let g1 := grid_upd (grid_upd gs.grid h.x h.y (Cell.set_snake false)) n.x n.y
    (Cell.set_snake true)
  if gs.snake.body = [] then
    { gs with grid := g1, snake := { gs.snake with head := n } }
  else
    { gs with
      grid := grid_upd g1 h.x h.y (Cell.set_body true)
      snake := { gs.snake with head := n, body := h :: gs.snake.body.dropLast } }

/-- What holds of the single apple `a` of a state. -/
structure AppleInv (gs : GameState) (a : IVector2) : Prop where
  apples_eq : gs.apples = [a]
  apple_in : in_grid a.x a.y
  apple_body : (gs.grid a.y a.x).has_body = false
  apple_flag : ∀ x y, in_grid x y → ((gs.grid y x).has_apple = true ↔ (x = a.x ∧ y = a.y))

/-- The facts that hold between steps 4) and 5) of `move_snake` and between
calls: the invariant `Inv` without the separation of apple and head. -/
structure MidInv (gs : GameState) : Prop where
  head_in : in_grid gs.snake.head.x gs.snake.head.y
  dir_unit : unit_dir gs.snake.direction
  body_in : ∀ b ∈ gs.snake.body, in_grid b.x b.y
  apple : ∃ a, AppleInv gs a
  snake_flag : ∀ x y, in_grid x y →
    ((gs.grid y x).has_snake = true ↔ (x = gs.snake.head.x ∧ y = gs.snake.head.y))
  body_flag : ∀ b ∈ gs.snake.body, (gs.grid b.y b.x).has_body = true
  score_eq : gs.score = gs.snake.body.length
  speed_lo : 1 / 20 ≤ gs.game_speed
  speed_hi : gs.game_speed ≤ 1

/-- The invariant of the main loop. -/
structure Inv (gs : GameState) : Prop where
  mid : MidInv gs
  apple_head : ∀ a ∈ gs.apples, a ≠ gs.snake.head

/-! ## Concrete states used as inputs -/

/-- The state built by `init_game_state` when the random source returns
`5, 5` for the head and `6, 5` for the apple. -/
def start_state : GameState :=
  { grid := grid_upd (grid_upd cleared_grid 5 5 (Cell.set_snake true)) 6 5 (Cell.set_apple true)
    snake := { head := ⟨5, 5⟩, body := [], direction := ⟨1, 0⟩ }
    apples := [⟨6, 5⟩]
    game_speed := 1 / 5
    score := 0 }

/-- The state built by `init_game_state` when the random source returns
`39, 0` for the head and `0, 0` for the apple: the head on the right edge,
the apple on the left edge of the same row. -/
def edge_state : GameState :=
  { grid := grid_upd (grid_upd cleared_grid 39 0 (Cell.set_snake true)) 0 0 (Cell.set_apple true)
    snake := { head := ⟨39, 0⟩, body := [], direction := ⟨1, 0⟩ }
    apples := [⟨0, 0⟩]
    game_speed := 1 / 5
    score := 0 }

/-- The state built by `init_game_state` when the random source returns
`39, 0` for the head and `5, 5` for the apple. -/
def wrap_state : GameState :=
  { grid := grid_upd (grid_upd cleared_grid 39 0 (Cell.set_snake true)) 5 5 (Cell.set_apple true)
    snake := { head := ⟨39, 0⟩, body := [], direction := ⟨1, 0⟩ }
    apples := [⟨5, 5⟩]
    game_speed := 1 / 5
    score := 0 }

/-- The state `start_state` after one tick to the right: the apple at
`(6, 5)` is eaten, the body is the single segment `(5, 5)` and the new apple
is at `(7, 7)`. -/
def neck_state : GameState :=
  { grid := grid_upd (grid_upd (grid_upd (grid_upd (grid_upd start_state.grid
        5 5 (Cell.set_snake false)) 6 5 (Cell.set_snake true)) 5 5 (Cell.set_body true))
        6 5 (Cell.set_apple false)) 7 7 (Cell.set_apple true)
    snake := { head := ⟨6, 5⟩, body := [⟨5, 5⟩], direction := ⟨1, 0⟩ }
    apples := [⟨7, 7⟩]
    game_speed := 1 / 5
    score := 1 }

/-- The state `neck_state` with the direction reversed to `(-1, 0)`. -/
def reversed_state : GameState :=
  { neck_state with snake := { neck_state.snake with direction := ⟨-1, 0⟩ } }

/-- A snake of four segments curled so that a step down from the head
`(5, 5)` lands on its third segment `(5, 6)`. -/
def curled_state : GameState :=
  { grid := cleared_grid
    snake := { head := ⟨5, 5⟩, body := [⟨4, 5⟩, ⟨4, 6⟩, ⟨5, 6⟩, ⟨6, 6⟩], direction := ⟨1, 0⟩ }
    apples := [⟨10, 10⟩]
    game_speed := 1 / 5
    score := 4 }

/-- A state holding the maximum of 20 apples, on the cells `(0, 0)` to
`(19, 0)` in insertion order, with the head at `(5, 5)`. -/
def full_state : GameState :=
  { grid := fun y x => ⟨decide (y = 0 ∧ 0 ≤ x ∧ x < 20), false, decide (y = 5 ∧ x = 5)⟩
    snake := { head := ⟨5, 5⟩, body := [], direction := ⟨1, 0⟩ }
    apples := (List.range 20).map (fun i => (⟨(i : Int), 0⟩ : IVector2))
    game_speed := 1 / 5
    score := 0 }

/-- The value of `*time_since_last_move` after a run: that left by the last
call, or the start value. -/
def final_timer (t : ℚ) (trace : List TickResult) : ℚ :=
  match trace.getLast? with
  | some r => r.timer
  | none => t

/-- Two states that differ at most in the direction of the snake. -/
def same_but_direction (a b : GameState) : Prop :=
  a.grid = b.grid ∧ a.snake.head = b.snake.head ∧ a.snake.body = b.snake.body ∧
    a.apples = b.apples ∧ a.game_speed = b.game_speed ∧ a.score = b.score

/-- Two states that are equal except for `has_body` flags on cells that are
not in the body list. -/
def same_but_stale_body (a b : GameState) : Prop :=
  a.snake = b.snake ∧ a.apples = b.apples ∧ a.game_speed = b.game_speed ∧
    a.score = b.score ∧
    ∀ x y, (a.grid y x).has_apple = (b.grid y x).has_apple ∧
      (a.grid y x).has_snake = (b.grid y x).has_snake ∧
      ((⟨x, y⟩ : IVector2) ∈ a.snake.body → (a.grid y x).has_body = (b.grid y x).has_body)

/-- The state `start_state` with the `has_body` flag of the cell `(7, 7)`
set, a cell that is not in the body list. -/
def flagged_state : GameState :=
  { start_state with grid := grid_upd start_state.grid 7 7 (Cell.set_body true) }

/-! ## Basic facts -/

theorem GRID_WIDTH_eq : GRID_WIDTH = 40 := by decide

theorem GRID_HEIGHT_eq : GRID_HEIGHT = 30 := by decide

theorem in_grid_iff (x y : Int) : in_grid x y ↔ 0 ≤ x ∧ x < 40 ∧ 0 ≤ y ∧ y < 30 := by
  simp [in_grid, GRID_WIDTH_eq, GRID_HEIGHT_eq]

theorem bind_ok_iff {ε α β : Type} (x : Except ε α) (f : α → Except ε β) (b : β) :
    (x >>= f) = .ok b ↔ ∃ a, x = .ok a ∧ f a = .ok b := by
  cases x <;> simp [bind, Except.bind]

theorem bind_error_iff {ε α β : Type} (x : Except ε α) (f : α → Except ε β) (e : ε) :
    (x >>= f) = .error e ↔ x = .error e ∨ ∃ a, x = .ok a ∧ f a = .error e := by
  cases x <;> simp [bind, Except.bind]

theorem grid_write_ok (g : Grid) (x y : Int) (f : Cell → Cell) (h : in_grid x y) :
    grid_write g x y f = .ok (grid_upd g x y f) := by
  simp [grid_write, h]

theorem grid_read_ok (g : Grid) (x y : Int) (h : in_grid x y) :
    grid_read g x y = .ok (g y x) := by
  simp [grid_read, h]

theorem grid_upd_apply (g : Grid) (x y : Int) (f : Cell → Cell) (x' y' : Int) :
    grid_upd g x y f y' x' = if y' = y ∧ x' = x then f (g y x) else g y' x' := rfl

theorem random_in_grid (rx ry : Nat) :
    in_grid (GetRandomValue 0 (GRID_WIDTH - 1) rx) (GetRandomValue 0 (GRID_HEIGHT - 1) ry) := by
  rw [in_grid_iff]
  simp only [GetRandomValue, GRID_WIDTH_eq, GRID_HEIGHT_eq]
  omega

theorem same_cell_iff (a b : IVector2) : same_cell a b = true ↔ a = b := by
  cases a; cases b; simp [same_cell]

/-! ## The array loops -/

theorem shift_loop_length (n : Nat) (l : List IVector2) :
    (shift_loop n l).length = l.length := by
  induction n generalizing l with
  | zero => rfl
  | succ n ih => simp [shift_loop, ih]

theorem shift_loop_getElem_opt (n : Nat) (l : List IVector2) (j : Nat) (hn : n < l.length) :
    (shift_loop n l)[j]? = if 1 ≤ j ∧ j ≤ n then l[j - 1]? else l[j]? := by
  induction n generalizing l with
  | zero =>
    have h0 : ¬ (1 ≤ j ∧ j ≤ 0) := by omega
    rw [shift_loop, if_neg h0]
  | succ n ih =>
    have hn' : n < (l.set (n + 1) (l.getD n ⟨0, 0⟩)).length := by simp; omega
    rw [shift_loop, ih _ hn']
    simp only [List.getElem?_set, List.getD_eq_getElem?_getD]
    by_cases h1 : 1 ≤ j ∧ j ≤ n
    · have h2 : ¬ (n + 1 = j - 1) := by omega
      have h3 : 1 ≤ j ∧ j ≤ n + 1 := by omega
      simp [h1, h2, h3]
    · by_cases h2 : j = n + 1
      · subst h2
        simp [hn]
        rw [List.getElem?_eq_getElem (by omega)]; simp
      · have h3 : ¬ (1 ≤ j ∧ j ≤ n + 1) := by omega
        have h4 : ¬ (n + 1 = j) := by omega
        simp [h1, h3, h4]

/-- The body loop of `move_snake` followed by `items[0] = oldHead` drops the
tail and puts the old head in front. -/
theorem shift_body_list (l : List IVector2) (h : IVector2) (hl : 0 < l.length) :
    (shift_loop (l.length - 1) l).set 0 h = h :: l.dropLast := by
  apply List.ext_getElem?
  intro j
  rw [List.getElem?_set]
  cases j with
  | zero => simp [shift_loop_length, hl]
  | succ k =>
    rw [shift_loop_getElem_opt _ _ _ (by omega)]
    simp only [List.getElem?_cons_succ, List.dropLast_eq_take, List.getElem?_take]
    by_cases h1 : k + 1 ≤ l.length - 1
    · have h2 : k < l.length - 1 := by omega
      simp [h1, h2]
    · have h2 : ¬ (k < l.length - 1) := by omega
      have h3 : l.length ≤ k + 1 := by omega
      simp [h1, h2, List.getElem?_eq_none h3]

theorem evict_loop_getElem_opt (k i : Nat) (l : List IVector2) (j : Nat) (h : i + k < l.length) :
    (evict_loop k i l)[j]? = if i ≤ j ∧ j < i + k then l[j + 1]? else l[j]? := by
  induction k generalizing i l with
  | zero =>
    have h0 : ¬ (i ≤ j ∧ j < i + 0) := by omega
    rw [evict_loop, if_neg h0]
  | succ k ih =>
    have h' : i + 1 + k < (l.set i (l.getD (i + 1) ⟨0, 0⟩)).length := by simp; omega
    rw [evict_loop, ih _ _ h']
    simp only [List.getElem?_set, List.getD_eq_getElem?_getD]
    by_cases h1 : i + 1 ≤ j ∧ j < i + 1 + k
    · have h2 : ¬ (i = j + 1) := by omega
      have h3 : i ≤ j ∧ j < i + (k + 1) := by omega
      simp [h1, h2, h3]
    · by_cases h2 : j = i
      · subst h2
        have h4 : j < l.length := by omega
        simp [h4]
        rw [List.getElem?_eq_getElem (by omega)]; simp
      · have h3 : ¬ (i ≤ j ∧ j < i + (k + 1)) := by omega
        have h4 : ¬ (i = j) := by omega
        simp [h1, h3, h4]

/-- The eviction loop of `spawn_random_apple` followed by `count--` drops
item 0 and keeps the others in order. -/
theorem evict_list (l : List IVector2) (hl : 0 < l.length) :
    (evict_loop (l.length - 1) 0 l).take (l.length - 1) = l.tail := by
  apply List.ext_getElem?
  intro j
  rw [List.getElem?_take]
  rw [evict_loop_getElem_opt _ _ _ _ (by omega)]
  by_cases h1 : j < l.length - 1
  · simp [h1]
  · have h3 : l.length ≤ j + 1 := by omega
    simp [h1, List.getElem?_eq_none h3]

/-! ## The stages of a grid step -/

theorem int_add_ok (a b : Int) (h : INT_MIN ≤ a + b ∧ a + b ≤ INT_MAX) :
    int_add a b = .ok (a + b) := by
  simp [int_add, h]

theorem int_sub_ok (a b : Int) (h : INT_MIN ≤ a - b ∧ a - b ≤ INT_MAX) :
    int_sub a b = .ok (a - b) := by
  simp [int_sub, h]

theorem wrap_head_next (h d : IVector2) (hh : in_grid h.x h.y) (hd : unit_dir d) :
    wrap_head ⟨h.x + d.x, h.y + d.y⟩ = next_cell h d := by
  rw [in_grid_iff] at hh
  obtain ⟨h1, h2, h3, h4⟩ := hh
  simp only [wrap_head, next_cell, GRID_WIDTH_eq, GRID_HEIGHT_eq]
  rcases hd with rfl | rfl | rfl | rfl <;> simp only [IVector2.mk.injEq] <;>
    constructor <;> split_ifs <;> omega

theorem next_cell_in_grid (h d : IVector2) : in_grid (next_cell h d).x (next_cell h d).y := by
  rw [in_grid_iff]
  simp only [next_cell, GRID_WIDTH_eq, GRID_HEIGHT_eq]
  omega

theorem next_cell_ne (h d : IVector2) (hh : in_grid h.x h.y) (hd : unit_dir d) :
    next_cell h d ≠ h := by
  rw [in_grid_iff] at hh
  obtain ⟨h1, h2, h3, h4⟩ := hh
  cases h with
  | mk hx hy =>
    simp only [next_cell, GRID_WIDTH_eq, GRID_HEIGHT_eq, ne_eq, IVector2.mk.injEq]
    simp only at h1 h2 h3 h4
    rcases hd with rfl | rfl | rfl | rfl <;> simp only <;> omega

theorem move_head_ok (gs : GameState) (hh : in_grid gs.snake.head.x gs.snake.head.y)
    (hd : unit_dir gs.snake.direction) :
    move_head gs = .ok { gs with
      grid := grid_upd (grid_upd gs.grid gs.snake.head.x gs.snake.head.y (Cell.set_snake false))
        (next_cell gs.snake.head gs.snake.direction).x
        (next_cell gs.snake.head gs.snake.direction).y (Cell.set_snake true)
      snake := { gs.snake with head := next_cell gs.snake.head gs.snake.direction } } := by
  have hx : int_add gs.snake.head.x gs.snake.direction.x
      = .ok (gs.snake.head.x + gs.snake.direction.x) := by
    apply int_add_ok
    rw [in_grid_iff] at hh
    simp only [INT_MIN, INT_MAX]
    rcases hd with h | h | h | h <;> rw [h] <;> simp only <;> omega
  have hy : int_add gs.snake.head.y gs.snake.direction.y
      = .ok (gs.snake.head.y + gs.snake.direction.y) := by
    apply int_add_ok
    rw [in_grid_iff] at hh
    simp only [INT_MIN, INT_MAX]
    rcases hd with h | h | h | h <;> rw [h] <;> simp only <;> omega
  simp only [move_head, grid_write_ok _ _ _ _ hh, hx, hy, wrap_head_next _ _ hh hd,
    grid_write_ok _ _ _ _ (next_cell_in_grid _ _), bind, Except.bind, pure, Except.pure]

theorem shift_body_ok (oldHead : IVector2) (gs : GameState)
    (hin : in_grid oldHead.x oldHead.y) :
    shift_body oldHead gs = .ok (if gs.snake.body = [] then gs else
      { gs with
        grid := grid_upd gs.grid oldHead.x oldHead.y (Cell.set_body true)
        snake := { gs.snake with body := oldHead :: gs.snake.body.dropLast } }) := by
  by_cases hb : gs.snake.body = []
  · simp [shift_body, hb, pure, Except.pure]
  · have hl : 0 < gs.snake.body.length := List.length_pos.mpr hb
    simp only [shift_body, hl, gt_iff_lt, if_true, shift_body_list _ _ hl, if_neg hb]
    simp [grid_write_ok _ _ _ _ hin, bind, Except.bind, pure, Except.pure]

theorem getD_last_mem (l : List IVector2) (d : IVector2) (hl : l ≠ []) :
    l.getD (l.length - 1) d ∈ l := by
  have h0 : 0 < l.length := List.length_pos.mpr hl
  have h1 : l.length - 1 < l.length := by omega
  rw [List.getD_eq_getElem?_getD, List.getElem?_eq_getElem h1]
  simp

theorem grow_snake_nonempty (gs : GameState) (hb : gs.snake.body ≠ [])
    (hin : ∀ b ∈ gs.snake.body, in_grid b.x b.y) :
    grow_snake gs = .ok { gs with
      grid := grid_upd gs.grid
        (gs.snake.body.getD (gs.snake.body.length - 1) gs.snake.head).x
        (gs.snake.body.getD (gs.snake.body.length - 1) gs.snake.head).y (Cell.set_body true)
      snake := { gs.snake with body := gs.snake.body ++
        [gs.snake.body.getD (gs.snake.body.length - 1) gs.snake.head] } } := by
  have hl : ¬ gs.snake.body.length = 0 := by
    intro h; exact hb (List.length_eq_zero.mp h)
  have ht := hin _ (getD_last_mem gs.snake.body gs.snake.head hb)
  simp only [grow_snake, hl, if_false, grid_write_ok _ _ _ _ ht, bind, Except.bind, pure,
    Except.pure]

theorem grow_snake_empty (gs : GameState) (hb : gs.snake.body = [])
    (hh : in_grid gs.snake.head.x gs.snake.head.y) (hd : unit_dir gs.snake.direction) :
    grow_snake gs =
      if in_grid (gs.snake.head.x - gs.snake.direction.x)
          (gs.snake.head.y - gs.snake.direction.y) then
        .ok { gs with
          grid := grid_upd gs.grid (gs.snake.head.x - gs.snake.direction.x)
            (gs.snake.head.y - gs.snake.direction.y) (Cell.set_body true)
          snake := { gs.snake with body :=
            [⟨gs.snake.head.x - gs.snake.direction.x,
              gs.snake.head.y - gs.snake.direction.y⟩] } }
      else .error (.outOfRange (gs.snake.head.x - gs.snake.direction.x)
          (gs.snake.head.y - gs.snake.direction.y)) := by
  have hx : int_sub gs.snake.head.x gs.snake.direction.x
      = .ok (gs.snake.head.x - gs.snake.direction.x) := by
    apply int_sub_ok
    rw [in_grid_iff] at hh
    simp only [INT_MIN, INT_MAX]
    rcases hd with h | h | h | h <;> rw [h] <;> simp only <;> omega
  have hy : int_sub gs.snake.head.y gs.snake.direction.y
      = .ok (gs.snake.head.y - gs.snake.direction.y) := by
    apply int_sub_ok
    rw [in_grid_iff] at hh
    simp only [INT_MIN, INT_MAX]
    rcases hd with h | h | h | h <;> rw [h] <;> simp only <;> omega
  simp only [grow_snake, hb, List.length_nil, if_true, hx, hy, bind, Except.bind, grid_write,
    pure, Except.pure, List.nil_append]
  split_ifs <;> rfl

theorem set_take_mem (l : List IVector2) (i : Nat) (d a : IVector2) (hl : l ≠ [])
    (ha : a ∈ (l.set i (l.getD (l.length - 1) d)).take (l.length - 1)) : a ∈ l := by
  have h1 := List.mem_of_mem_take ha
  rcases List.mem_or_eq_of_mem_set h1 with h | h
  · exact h
  · rw [h]; exact getD_last_mem l d hl

theorem remove_apple_at_head_ok (gs : GameState)
    (hh : in_grid gs.snake.head.x gs.snake.head.y) :
    ∃ g items, remove_apple_at_head gs = .ok { gs with grid := g, apples := items } ∧
      (∀ a ∈ items, a ∈ gs.apples) ∧ items.length ≤ gs.apples.length := by
  unfold remove_apple_at_head
  simp only []
  split
  · exact ⟨gs.grid, gs.apples, rfl, fun a ha => ha, le_refl _⟩
  · rename_i i hf
    have hne : gs.apples ≠ [] := by
      intro h; rw [h] at hf; simp at hf
    refine ⟨grid_upd gs.grid gs.snake.head.x gs.snake.head.y (Cell.set_apple false),
      (gs.apples.set i (gs.apples.getD (gs.apples.length - 1) gs.snake.head)).take
        (gs.apples.length - 1), ?_, ?_, ?_⟩
    · simp only [grid_write_ok _ _ _ _ hh, bind, Except.bind, pure, Except.pure]
    · intro a ha; exact set_take_mem _ _ _ _ hne ha
    · simp

theorem spawn_pick_ok (g : Grid) (rng rest : List Nat) (n : IVector2)
    (h : spawn_pick g rng = .ok (n, rest)) :
    in_grid n.x n.y ∧ (g n.y n.x).has_snake = false ∧ (g n.y n.x).has_body = false ∧
      (g n.y n.x).has_apple = false := by
  induction rng using spawn_pick.induct g with
  | case1 rx ry rest' ih =>
    rw [spawn_pick] at h
    simp only [grid_read_ok _ _ _ (random_in_grid rx ry), bind, Except.bind] at h
    split_ifs at h with hc
    · exact ih h
    · simp only [pure, Except.pure, Except.ok.injEq, Prod.mk.injEq] at h
      obtain ⟨h1, _⟩ := h
      subst h1
      simp only [Bool.or_eq_true, not_or, Bool.not_eq_true] at hc
      exact ⟨random_in_grid rx ry, hc.1.1, hc.1.2, hc.2⟩
  | case2 rng' hrng =>
    rw [spawn_pick] at h
    · simp at h
    · exact hrng

theorem spawn_pick_error (g : Grid) (rng : List Nat) (e : Fault)
    (h : spawn_pick g rng = .error e) : e = .noDraws := by
  induction rng using spawn_pick.induct g with
  | case1 rx ry rest' ih =>
    rw [spawn_pick] at h
    simp only [grid_read_ok _ _ _ (random_in_grid rx ry), bind, Except.bind] at h
    split_ifs at h with hc
    · exact ih h
    · simp [pure, Except.pure] at h
  | case2 rng' hrng =>
    rw [spawn_pick] at h
    · simp at h; exact h.symm
    · exact hrng

theorem spawn_random_apple_of_pick (gs : GameState) (rng rest : List Nat) (n : IVector2)
    (h : spawn_pick gs.grid rng = .ok (n, rest)) :
    spawn_random_apple gs rng =
      if 20 < gs.apples.length + 1 then
        if in_grid ((gs.apples ++ [n]).getD 0 n).x ((gs.apples ++ [n]).getD 0 n).y then
          .ok ({ gs with
            grid := grid_upd (grid_upd gs.grid n.x n.y (Cell.set_apple true))
              ((gs.apples ++ [n]).getD 0 n).x ((gs.apples ++ [n]).getD 0 n).y
              (Cell.set_apple false)
            apples := (gs.apples ++ [n]).tail }, rest)
        else .error (.outOfRange ((gs.apples ++ [n]).getD 0 n).x
          ((gs.apples ++ [n]).getD 0 n).y)
      else
        .ok ({ gs with grid := grid_upd gs.grid n.x n.y (Cell.set_apple true)
                       apples := gs.apples ++ [n] }, rest) := by
  have hn := (spawn_pick_ok _ _ _ _ h).1
  have hl : 0 < (gs.apples ++ [n]).length := by simp
  simp only [spawn_random_apple, h, grid_write_ok _ _ _ _ hn, bind, Except.bind, pure,
    Except.pure, gt_iff_lt, List.length_append, List.length_singleton]
  split_ifs with h1 h2
  · simp only [grid_write_ok _ _ _ _ h2]
    have := evict_list (gs.apples ++ [n]) hl
    simp only [List.length_append, List.length_singleton] at this
    rw [this]
  · simp only [grid_write, h2, if_false]
  · rfl

theorem spawn_random_apple_error (gs : GameState) (rng : List Nat) (e : Fault)
    (h : spawn_pick gs.grid rng = .error e) : spawn_random_apple gs rng = .error e := by
  simp only [spawn_random_apple, h, bind, Except.bind]

theorem init_apple_pick_ok (g : Grid) (rng rest : List Nat) (n : IVector2)
    (h : init_apple_pick g rng = .ok (n, rest)) :
    in_grid n.x n.y ∧ (g n.y n.x).has_snake = false ∧ (g n.y n.x).has_apple = false := by
  induction rng using init_apple_pick.induct g with
  | case1 rx ry rest' ih =>
    rw [init_apple_pick] at h
    simp only [grid_read_ok _ _ _ (random_in_grid rx ry), bind, Except.bind] at h
    split_ifs at h with hc
    · exact ih h
    · simp only [pure, Except.pure, Except.ok.injEq, Prod.mk.injEq] at h
      obtain ⟨h1, _⟩ := h
      subst h1
      simp only [Bool.or_eq_true, not_or, Bool.not_eq_true] at hc
      exact ⟨random_in_grid rx ry, hc.1, hc.2⟩
  | case2 rng' hrng =>
    rw [init_apple_pick] at h
    · simp at h
    · exact hrng

theorem init_apple_pick_error (g : Grid) (rng : List Nat) (e : Fault)
    (h : init_apple_pick g rng = .error e) : e = .noDraws := by
  induction rng using init_apple_pick.induct g with
  | case1 rx ry rest' ih =>
    rw [init_apple_pick] at h
    simp only [grid_read_ok _ _ _ (random_in_grid rx ry), bind, Except.bind] at h
    split_ifs at h with hc
    · exact ih h
    · simp [pure, Except.pure] at h
  | case2 rng' hrng =>
    rw [init_apple_pick] at h
    · simp at h; exact h.symm
    · exact hrng

/-- The state built by `init_game_state` for head cell `hd` and apple `a`. -/
theorem init_game_state_ok (rng rest : List Nat) (gs : GameState)
    (h : init_game_state rng = .ok (gs, rest)) :
    ∃ hd a : IVector2, in_grid hd.x hd.y ∧ in_grid a.x a.y ∧ a ≠ hd ∧
      gs = { grid := grid_upd (grid_upd cleared_grid hd.x hd.y (Cell.set_snake true))
                a.x a.y (Cell.set_apple true)
             snake := { head := hd, body := [], direction := ⟨1, 0⟩ }
             apples := [a]
             game_speed := 1 / 5
             score := 0 } := by
  match rng, h with
  | rx :: ry :: rng', h =>
    have hh := random_in_grid rx ry
    simp only [init_game_state, grid_write_ok _ _ _ _ hh, INITIAL_APPLES, init_apples, bind,
      Except.bind, pure, Except.pure] at h
    split at h
    · simp at h
    · rename_i v hv
      obtain ⟨a, r1⟩ := v
      have ha := init_apple_pick_ok _ _ _ _ hv
      simp only [grid_write_ok _ _ _ _ ha.1, Except.ok.injEq, Prod.mk.injEq,
        List.nil_append] at h
      refine ⟨⟨GetRandomValue 0 (GRID_WIDTH - 1) rx, GetRandomValue 0 (GRID_HEIGHT - 1) ry⟩,
        a, hh, ha.1, ?_, h.1.symm⟩
      intro hEq
      have h2 := ha.2.1
      rw [hEq] at h2
      simp [grid_upd_apply, Cell.set_snake] at h2
  | [], h => simp [init_game_state] at h
  | [_], h => simp [init_game_state] at h

theorem init_game_state_error (rng : List Nat) (e : Fault)
    (h : init_game_state rng = .error e) : e = .noDraws := by
  match rng, h with
  | rx :: ry :: rng', h =>
    have hh := random_in_grid rx ry
    simp only [init_game_state, grid_write_ok _ _ _ _ hh, INITIAL_APPLES, init_apples, bind,
      Except.bind, pure, Except.pure] at h
    split at h
    · rename_i e' he
      simp only [Except.error.injEq] at h
      rw [← h]; exact init_apple_pick_error _ _ _ he
    · rename_i v hv
      obtain ⟨a, r1⟩ := v
      have ha := init_apple_pick_ok _ _ _ _ hv
      simp [grid_write_ok _ _ _ _ ha.1] at h
  | [], h => simp [init_game_state] at h; exact h.symm
  | [_], h => simp [init_game_state] at h; exact h.symm

/-! ## Flags of an updated grid -/

theorem upd_apple_apple (g : Grid) (x y : Int) (b : Bool) (x' y' : Int) :
    (grid_upd g x y (Cell.set_apple b) y' x').has_apple
      = if y' = y ∧ x' = x then b else (g y' x').has_apple := by
  simp only [grid_upd_apply]; split_ifs <;> rfl

theorem upd_apple_body (g : Grid) (x y : Int) (b : Bool) (x' y' : Int) :
    (grid_upd g x y (Cell.set_apple b) y' x').has_body = (g y' x').has_body := by
  simp only [grid_upd_apply]; split_ifs with h
  · obtain ⟨rfl, rfl⟩ := h; rfl
  · rfl

theorem upd_apple_snake (g : Grid) (x y : Int) (b : Bool) (x' y' : Int) :
    (grid_upd g x y (Cell.set_apple b) y' x').has_snake = (g y' x').has_snake := by
  simp only [grid_upd_apply]; split_ifs with h
  · obtain ⟨rfl, rfl⟩ := h; rfl
  · rfl

theorem upd_body_body (g : Grid) (x y : Int) (b : Bool) (x' y' : Int) :
    (grid_upd g x y (Cell.set_body b) y' x').has_body
      = if y' = y ∧ x' = x then b else (g y' x').has_body := by
  simp only [grid_upd_apply]; split_ifs <;> rfl

theorem upd_body_apple (g : Grid) (x y : Int) (b : Bool) (x' y' : Int) :
    (grid_upd g x y (Cell.set_body b) y' x').has_apple = (g y' x').has_apple := by
  simp only [grid_upd_apply]; split_ifs with h
  · obtain ⟨rfl, rfl⟩ := h; rfl
  · rfl

theorem upd_body_snake (g : Grid) (x y : Int) (b : Bool) (x' y' : Int) :
    (grid_upd g x y (Cell.set_body b) y' x').has_snake = (g y' x').has_snake := by
  simp only [grid_upd_apply]; split_ifs with h
  · obtain ⟨rfl, rfl⟩ := h; rfl
  · rfl

theorem upd_snake_snake (g : Grid) (x y : Int) (b : Bool) (x' y' : Int) :
    (grid_upd g x y (Cell.set_snake b) y' x').has_snake
      = if y' = y ∧ x' = x then b else (g y' x').has_snake := by
  simp only [grid_upd_apply]; split_ifs <;> rfl

theorem upd_snake_apple (g : Grid) (x y : Int) (b : Bool) (x' y' : Int) :
    (grid_upd g x y (Cell.set_snake b) y' x').has_apple = (g y' x').has_apple := by
  simp only [grid_upd_apply]; split_ifs with h
  · obtain ⟨rfl, rfl⟩ := h; rfl
  · rfl

theorem upd_snake_body (g : Grid) (x y : Int) (b : Bool) (x' y' : Int) :
    (grid_upd g x y (Cell.set_snake b) y' x').has_body = (g y' x').has_body := by
  simp only [grid_upd_apply]; split_ifs with h
  · obtain ⟨rfl, rfl⟩ := h; rfl
  · rfl

theorem vec_ne_iff (a b : IVector2) : a ≠ b ↔ ¬ (a.x = b.x ∧ a.y = b.y) := by
  cases a; cases b; simp

/-! ## The invariant -/

theorem init_game_state_inv (rng rest : List Nat) (gs : GameState)
    (h : init_game_state rng = .ok (gs, rest)) : Inv gs := by
  obtain ⟨hd, a, hh, ha, hne, rfl⟩ := init_game_state_ok rng rest gs h
  rw [vec_ne_iff] at hne
  refine ⟨⟨hh, Or.inl rfl, ?_, ⟨a, rfl, ha, ?_, ?_⟩, ?_, ?_, rfl, ?_, ?_⟩, ?_⟩
  · intro b hb; simp at hb
  · simp [upd_apple_body, upd_snake_body, cleared_grid]
  · intro x y _
    simp only [upd_apple_apple, upd_snake_apple, cleared_grid]
    constructor
    · intro h1; split_ifs at h1 with h2
      exact ⟨h2.2, h2.1⟩
    · intro h1; simp [h1]
  · intro x y _
    simp only [upd_apple_snake, upd_snake_snake, cleared_grid]
    constructor
    · intro h1; split_ifs at h1 with h2
      exact ⟨h2.2, h2.1⟩
    · intro h1; simp [h1]
  · intro b hb; simp at hb
  · norm_num
  · norm_num
  · intro b hb
    simp only [List.mem_singleton] at hb
    subst hb
    rw [vec_ne_iff]; exact hne


theorem moved_state_head (gs : GameState) :
    (moved_state gs).snake.head = next_cell gs.snake.head gs.snake.direction := by
  simp only [moved_state]; split_ifs <;> rfl

theorem moved_state_body (gs : GameState) :
    (moved_state gs).snake.body
      = if gs.snake.body = [] then [] else gs.snake.head :: gs.snake.body.dropLast := by
  simp only [moved_state]; split_ifs with h
  · exact h
  · rfl

theorem moved_state_apples (gs : GameState) : (moved_state gs).apples = gs.apples := by
  simp only [moved_state]; split_ifs <;> rfl

theorem moved_state_score (gs : GameState) : (moved_state gs).score = gs.score := by
  simp only [moved_state]; split_ifs <;> rfl

theorem moved_state_speed (gs : GameState) :
    (moved_state gs).game_speed = gs.game_speed := by
  simp only [moved_state]; split_ifs <;> rfl

theorem moved_state_direction (gs : GameState) :
    (moved_state gs).snake.direction = gs.snake.direction := by
  simp only [moved_state]; split_ifs <;> rfl

theorem moved_state_length (gs : GameState) :
    (moved_state gs).snake.body.length = gs.snake.body.length := by
  rw [moved_state_body]; split_ifs with h
  · simp [h]
  · have := List.length_pos.mpr h
    simp; omega

/-- Steps 2) to 4) of `move_snake` succeed on an in-range head with a unit
direction and produce `moved_state`. -/
theorem move_shift_ok (gs : GameState) (hh : in_grid gs.snake.head.x gs.snake.head.y)
    (hd : unit_dir gs.snake.direction) :
    (move_head gs >>= shift_body gs.snake.head) = .ok (moved_state gs) := by
  rw [move_head_ok gs hh hd]
  simp only [bind, Except.bind, shift_body_ok _ _ hh, moved_state]

theorem grid_step_eq (gs : GameState) (rng : List Nat)
    (hh : in_grid gs.snake.head.x gs.snake.head.y) (hd : unit_dir gs.snake.direction) :
    grid_step gs rng =
      ((if snake_eats_apple (moved_state gs) then eat_apple (moved_state gs) rng
        else pure (moved_state gs, rng)) >>= fun p =>
        if snake_collides_with_body p.1 then
          reset_game p.1 p.2 >>= fun q =>
            pure ⟨q.1, q.2.1, true, snake_eats_apple (moved_state gs), true⟩
        else pure ⟨p.1, 0, true, snake_eats_apple (moved_state gs), false⟩) := by
  have h := move_shift_ok gs hh hd
  rw [move_head_ok gs hh hd] at h
  simp only [bind, Except.bind] at h
  simp only [grid_step, finish_step, move_head_ok gs hh hd, bind, Except.bind, h]
  split_ifs <;> rfl

theorem moved_state_has_apple (gs : GameState) (x y : Int) :
    ((moved_state gs).grid y x).has_apple = (gs.grid y x).has_apple := by
  simp only [moved_state]
  split_ifs <;> simp only [upd_body_apple, upd_snake_apple]

theorem moved_state_has_snake (gs : GameState) (x y : Int) :
    ((moved_state gs).grid y x).has_snake =
      if y = (next_cell gs.snake.head gs.snake.direction).y ∧
          x = (next_cell gs.snake.head gs.snake.direction).x then true
      else if y = gs.snake.head.y ∧ x = gs.snake.head.x then false
      else (gs.grid y x).has_snake := by
  simp only [moved_state]
  split_ifs <;> simp_all only [upd_body_snake, upd_snake_snake, if_true, if_false, and_self]

theorem moved_state_has_body (gs : GameState) (x y : Int) :
    ((moved_state gs).grid y x).has_body =
      if gs.snake.body ≠ [] ∧ y = gs.snake.head.y ∧ x = gs.snake.head.x then true
      else (gs.grid y x).has_body := by
  simp only [moved_state]
  by_cases hb : gs.snake.body = []
  · simp [hb, upd_snake_body]
  · simp [hb, upd_body_body, upd_snake_body]

/-- Steps 2) to 4) of `move_snake` keep everything of the invariant except
that the head may now be on the apple. -/
theorem moved_state_mid (gs : GameState) (hi : Inv gs) : MidInv (moved_state gs) := by
  obtain ⟨⟨hh, hd, hb, ⟨a, ha⟩, hs, hbf, hsc, hlo, hhi⟩, hah⟩ := hi
  have hne : a ≠ gs.snake.head := hah a (by rw [ha.apples_eq]; simp)
  rw [vec_ne_iff] at hne
  refine ⟨?_, ?_, ?_, ⟨a, ?_, ha.apple_in, ?_, ?_⟩, ?_, ?_, ?_, ?_, ?_⟩
  · rw [moved_state_head]; exact next_cell_in_grid _ _
  · rw [moved_state_direction]; exact hd
  · intro b hb'
    rw [moved_state_body] at hb'
    split_ifs at hb' with h1
    · simp at hb'
    · rcases List.mem_cons.mp hb' with h2 | h2
      · rw [h2]; exact hh
      · exact hb b (List.mem_of_mem_dropLast h2)
  · rw [moved_state_apples]; exact ha.apples_eq
  · rw [moved_state_has_body]
    have h1 : ¬ (gs.snake.body ≠ [] ∧ a.y = gs.snake.head.y ∧ a.x = gs.snake.head.x) := by
      intro h; exact hne ⟨h.2.2, h.2.1⟩
    rw [if_neg h1]; exact ha.apple_body
  · intro x y hxy
    rw [moved_state_has_apple]; exact ha.apple_flag x y hxy
  · intro x y hxy
    rw [moved_state_has_snake, moved_state_head]
    have hnx := next_cell_ne gs.snake.head gs.snake.direction hh hd
    rw [vec_ne_iff] at hnx
    split_ifs with h1 h2
    · simp [h1]
    · simp only [Bool.false_eq_true, false_iff]
      intro h3; exact hnx ⟨by rw [← h3.1, h2.2], by rw [← h3.2, h2.1]⟩
    · rw [hs x y hxy]
      constructor
      · intro h3; exact absurd ⟨h3.2, h3.1⟩ h2
      · intro h3; exact absurd ⟨h3.2, h3.1⟩ h1
  · intro b hb'
    rw [moved_state_has_body]
    rw [moved_state_body] at hb'
    split_ifs at hb' with h1
    · simp at hb'
    · rcases List.mem_cons.mp hb' with h2 | h2
      · rw [h2]; simp [h1]
      · have := hbf b (List.mem_of_mem_dropLast h2)
        split_ifs <;> simp [this]
  · rw [moved_state_score, moved_state_length]; exact hsc
  · rw [moved_state_speed]; exact hlo
  · rw [moved_state_speed]; exact hhi

/-! ## What the apple branch leaves alone -/

theorem grow_snake_frame (gs gs' : GameState) (h : grow_snake gs = .ok gs') :
    gs'.snake.head = gs.snake.head ∧ gs'.snake.direction = gs.snake.direction ∧
      gs'.apples = gs.apples ∧ gs'.score = gs.score ∧ gs'.game_speed = gs.game_speed ∧
      ∃ t, gs'.snake.body = gs.snake.body ++ [t] := by
  unfold grow_snake at h
  split_ifs at h
  · simp only [bind_ok_iff, pure, Except.pure, Except.ok.injEq] at h
    obtain ⟨tx, _, ty, _, g, _, rfl⟩ := h
    exact ⟨rfl, rfl, rfl, rfl, rfl, _, rfl⟩
  · simp only [bind_ok_iff, pure, Except.pure, Except.ok.injEq] at h
    obtain ⟨g, _, rfl⟩ := h
    exact ⟨rfl, rfl, rfl, rfl, rfl, _, rfl⟩

theorem remove_apple_at_head_frame (gs gs' : GameState)
    (h : remove_apple_at_head gs = .ok gs') :
    gs'.snake = gs.snake ∧ gs'.score = gs.score ∧ gs'.game_speed = gs.game_speed := by
  unfold remove_apple_at_head at h
  simp only [] at h
  split at h
  · simp only [pure, Except.pure, Except.ok.injEq] at h
    subst h; exact ⟨rfl, rfl, rfl⟩
  · simp only [bind_ok_iff, pure, Except.pure, Except.ok.injEq] at h
    obtain ⟨g, _, rfl⟩ := h
    exact ⟨rfl, rfl, rfl⟩

theorem spawn_random_apple_frame (gs gs' : GameState) (rng rest : List Nat)
    (h : spawn_random_apple gs rng = .ok (gs', rest)) :
    gs'.snake = gs.snake ∧ gs'.score = gs.score ∧ gs'.game_speed = gs.game_speed := by
  unfold spawn_random_apple at h
  simp only [bind_ok_iff] at h
  obtain ⟨⟨n, r1⟩, _, g1, _, h⟩ := h
  simp only [] at h
  split_ifs at h
  · simp only [bind_ok_iff, pure, Except.pure, Except.ok.injEq, Prod.mk.injEq] at h
    obtain ⟨g2, _, rfl, _⟩ := h
    exact ⟨rfl, rfl, rfl⟩
  · simp only [pure, Except.pure, Except.ok.injEq, Prod.mk.injEq] at h
    obtain ⟨rfl, _⟩ := h
    exact ⟨rfl, rfl, rfl⟩

theorem eat_apple_frame (gs gs' : GameState) (rng rest : List Nat)
    (h : eat_apple gs rng = .ok (gs', rest)) :
    gs'.snake.head = gs.snake.head ∧ gs'.snake.direction = gs.snake.direction ∧
      gs'.score = gs.score + 1 ∧ gs'.game_speed = gs.game_speed ∧
      ∃ t, gs'.snake.body = gs.snake.body ++ [t] := by
  unfold eat_apple at h
  simp only [bind_ok_iff] at h
  obtain ⟨gs1, h1, gs2, h2, ⟨gs3, r1⟩, h3, sc, h4, h5⟩ := h
  simp only [pure, Except.pure, Except.ok.injEq, Prod.mk.injEq] at h5
  obtain ⟨rfl, _⟩ := h5
  obtain ⟨a1, a2, _, a4, a5, t, a6⟩ := grow_snake_frame _ _ h1
  obtain ⟨b1, b2, b3⟩ := remove_apple_at_head_frame _ _ h2
  obtain ⟨c1, c2, c3⟩ := spawn_random_apple_frame _ _ _ _ h3
  have hsc : sc = gs3.score + 1 := by
    unfold int_add at h4
    split_ifs at h4
    simp only [Except.ok.injEq] at h4
    exact h4.symm
  refine ⟨?_, ?_, ?_, ?_, t, ?_⟩
  · show gs3.snake.head = _; rw [c1, b1, a1]
  · show gs3.snake.direction = _; rw [c1, b1, a2]
  · show sc = _; rw [hsc, c2, b2, a4]
  · show gs3.game_speed = _; rw [c3, b3, a5]
  · show gs3.snake.body = _; rw [c1, b1, a6]

theorem grow_snake_form (gs gs1 : GameState) (hh : in_grid gs.snake.head.x gs.snake.head.y)
    (hd : unit_dir gs.snake.direction) (hb : ∀ b ∈ gs.snake.body, in_grid b.x b.y)
    (h : grow_snake gs = .ok gs1) :
    ∃ t : IVector2, in_grid t.x t.y ∧
      gs1 = { gs with
        grid := grid_upd gs.grid t.x t.y (Cell.set_body true)
        snake := { gs.snake with body := gs.snake.body ++ [t] } } := by
  by_cases he : gs.snake.body = []
  · rw [grow_snake_empty gs he hh hd] at h
    split_ifs at h with h1
    simp only [Except.ok.injEq] at h
    refine ⟨⟨gs.snake.head.x - gs.snake.direction.x,
      gs.snake.head.y - gs.snake.direction.y⟩, h1, ?_⟩
    rw [← h, he]; rfl
  · rw [grow_snake_nonempty gs he hb] at h
    simp only [Except.ok.injEq] at h
    exact ⟨_, hb _ (getD_last_mem _ _ he), h.symm⟩

theorem remove_apple_single (gs : GameState) (a : IVector2) (ha : gs.apples = [a])
    (hh : gs.snake.head = a) (hin : in_grid a.x a.y) :
    remove_apple_at_head gs = .ok { gs with
      grid := grid_upd gs.grid a.x a.y (Cell.set_apple false), apples := [] } := by
  have hs : same_cell a a = true := (same_cell_iff a a).mpr rfl
  simp only [remove_apple_at_head, ha, hh, List.findIdx?_cons, hs, if_true,
    grid_write_ok _ _ _ _ hin, bind, Except.bind, pure, Except.pure]
  simp

theorem spawn_random_apple_form (gs gs' : GameState) (rng rest : List Nat)
    (hl : gs.apples.length < 20) (h : spawn_random_apple gs rng = .ok (gs', rest)) :
    ∃ n : IVector2, spawn_pick gs.grid rng = .ok (n, rest) ∧
      gs' = { gs with grid := grid_upd gs.grid n.x n.y (Cell.set_apple true)
                      apples := gs.apples ++ [n] } := by
  cases hp : spawn_pick gs.grid rng with
  | error e => rw [spawn_random_apple_error gs rng e hp] at h; simp at h
  | ok v =>
    obtain ⟨n, r⟩ := v
    rw [spawn_random_apple_of_pick gs rng r n hp] at h
    have h1 : ¬ (20 < gs.apples.length + 1) := by omega
    rw [if_neg h1] at h
    simp only [Except.ok.injEq, Prod.mk.injEq] at h
    obtain ⟨h2, h3⟩ := h
    subst h3
    exact ⟨n, rfl, h2.symm⟩

theorem eats_single (gs : GameState) (a : IVector2) (ha : gs.apples = [a]) :
    snake_eats_apple gs = true ↔ gs.snake.head = a := by
  simp [snake_eats_apple, ha, same_cell_iff]

/-- Step 5) of `move_snake` re-establishes the invariant. -/
theorem eat_apple_inv (gs gs' : GameState) (rng rest : List Nat) (hm : MidInv gs)
    (he : snake_eats_apple gs = true) (h : eat_apple gs rng = .ok (gs', rest)) : Inv gs' := by
  obtain ⟨hh, hd, hb, ⟨a, ha⟩, hs, hbf, hsc, hlo, hhi⟩ := hm
  have hha : gs.snake.head = a := (eats_single gs a ha.apples_eq).mp he
  unfold eat_apple at h
  simp only [bind_ok_iff] at h
  obtain ⟨gs1, h1, gs2, h2, ⟨gs3, r1⟩, h3, sc, h4, h5⟩ := h
  simp only [pure, Except.pure, Except.ok.injEq, Prod.mk.injEq] at h5
  obtain ⟨rfl, _⟩ := h5
  obtain ⟨t, ht, hgs1⟩ := grow_snake_form gs gs1 hh hd hb h1
  have ha1 : gs1.apples = [a] := by rw [hgs1]; exact ha.apples_eq
  have hh1 : gs1.snake.head = a := by rw [hgs1]; exact hha
  rw [remove_apple_single gs1 a ha1 hh1 ha.apple_in] at h2
  simp only [Except.ok.injEq] at h2
  have hl2 : gs2.apples.length < 20 := by rw [← h2]; simp
  obtain ⟨n, hp, hgs3⟩ := spawn_random_apple_form gs2 gs3 rng r1 hl2 h3
  subst hgs3
  subst h2
  subst hgs1
  obtain ⟨hn, hn1, hn2, hn3⟩ := spawn_pick_ok _ _ _ _ hp
  simp only [upd_apple_snake, upd_body_snake, upd_apple_body, upd_body_body] at hn1 hn2
  have hsc' : sc = gs.score + 1 := by
    unfold int_add at h4
    split_ifs at h4
    simp only [Except.ok.injEq] at h4
    exact h4.symm
  have hnh : ¬ (n.x = gs.snake.head.x ∧ n.y = gs.snake.head.y) := by
    intro hc
    have := (hs n.x n.y hn).mpr hc
    rw [hn1] at this
    exact Bool.false_ne_true this
  refine ⟨⟨hh, hd, ?_, ⟨n, rfl, hn, ?_, ?_⟩, ?_, ?_, ?_, hlo, hhi⟩, ?_⟩
  · intro b hb'
    rcases List.mem_append.mp hb' with h6 | h6
    · exact hb b h6
    · simp only [List.mem_singleton] at h6; rw [h6]; exact ht
  · simp only [upd_apple_body, upd_body_body]; exact hn2
  · intro x y hxy
    simp only [upd_apple_apple, upd_body_apple]
    split_ifs with h6 h7
    · simp [h6]
    · simp only [Bool.false_eq_true, false_iff]
      intro h8; exact h6 ⟨h8.2, h8.1⟩
    · rw [ha.apple_flag x y hxy]
      constructor
      · intro h8; exact absurd ⟨h8.2, h8.1⟩ h7
      · intro h8; exact absurd ⟨h8.2, h8.1⟩ h6
  · intro x y hxy
    simp only [upd_apple_snake, upd_body_snake]
    exact hs x y hxy
  · intro b hb'
    simp only [upd_apple_body, upd_body_body]
    rcases List.mem_append.mp hb' with h6 | h6
    · have := hbf b h6
      split_ifs <;> simp [this]
    · simp only [List.mem_singleton] at h6; simp [h6]
  · show sc = _
    rw [hsc', hsc]; simp
  · intro b hb'
    simp only [List.nil_append, List.mem_singleton] at hb'
    subst hb'
    rw [vec_ne_iff]; exact hnh

theorem set_direction_unit (dir : Int) (gs : GameState) (hd : unit_dir gs.snake.direction) :
    unit_dir (set_direction dir gs).snake.direction := by
  unfold set_direction
  split_ifs
  · exact Or.inl rfl
  · exact Or.inr (Or.inl rfl)
  · exact Or.inr (Or.inr (Or.inl rfl))
  · exact Or.inr (Or.inr (Or.inr rfl))
  · exact hd

theorem set_direction_inv (dir : Int) (gs : GameState) (hi : Inv gs) :
    Inv (set_direction dir gs) := by
  have hu := set_direction_unit dir gs hi.mid.dir_unit
  obtain ⟨⟨hh, hd, hb, ⟨a, ha⟩, hs, hbf, hsc, hlo, hhi⟩, hah⟩ := hi
  unfold set_direction at hu ⊢
  split_ifs at hu ⊢ <;>
    exact ⟨⟨hh, hu, hb, ⟨a, ⟨ha.apples_eq, ha.apple_in, ha.apple_body, ha.apple_flag⟩⟩, hs, hbf,
      hsc, hlo, hhi⟩, hah⟩

theorem reset_game_ok (gs gs' : GameState) (rng rest : List Nat) (t : ℚ)
    (h : reset_game gs rng = .ok (gs', t, rest)) :
    init_game_state rng = .ok (gs', rest) ∧ t = 0 := by
  unfold reset_game at h
  simp only [bind_ok_iff, pure, Except.pure, Except.ok.injEq, Prod.mk.injEq] at h
  obtain ⟨⟨g, r⟩, h1, h2, h3, h4⟩ := h
  subst h2 h4
  exact ⟨h1, h3.symm⟩

/-- The collision test that ends a grid step: either the state is kept or
`reset_game` rebuilds it. -/
theorem collision_branch (gs3 : GameState) (rng1 : List Nat) (ate : Bool) (r : TickResult)
    (h : (if snake_collides_with_body gs3 then
            reset_game gs3 rng1 >>= fun q => pure ⟨q.1, q.2.1, true, ate, true⟩
          else pure ⟨gs3, 0, true, ate, false⟩ : Except Fault TickResult) = .ok r) :
    r.timer = 0 ∧ r.moved = true ∧ r.ateApple = ate ∧
      r.collided = snake_collides_with_body gs3 ∧
      ((snake_collides_with_body gs3 = false ∧ r.gs = gs3) ∨
        (snake_collides_with_body gs3 = true ∧
          ∃ rest, init_game_state rng1 = .ok (r.gs, rest))) := by
  split_ifs at h with hc
  · simp only [bind_ok_iff, pure, Except.pure, Except.ok.injEq] at h
    obtain ⟨⟨g, t, rest⟩, h1, rfl⟩ := h
    obtain ⟨h2, h3⟩ := reset_game_ok _ _ _ _ _ h1
    exact ⟨h3, rfl, rfl, hc.symm, Or.inr ⟨hc, rest, h2⟩⟩
  · simp only [pure, Except.pure, Except.ok.injEq] at h
    subst h
    simp only [Bool.not_eq_true] at hc
    exact ⟨rfl, rfl, rfl, hc.symm, Or.inl ⟨hc, rfl⟩⟩

theorem collision_branch_inv (gs3 : GameState) (rng1 : List Nat) (ate : Bool)
    (r : TickResult) (hi : Inv gs3)
    (h : (if snake_collides_with_body gs3 then
            reset_game gs3 rng1 >>= fun q => pure ⟨q.1, q.2.1, true, ate, true⟩
          else pure ⟨gs3, 0, true, ate, false⟩ : Except Fault TickResult) = .ok r) :
    Inv r.gs := by
  obtain ⟨_, _, _, _, h1 | h1⟩ := collision_branch gs3 rng1 ate r h
  · rw [h1.2]; exact hi
  · obtain ⟨_, rest, h2⟩ := h1
    exact init_game_state_inv _ _ _ h2

theorem grid_step_inv (gs : GameState) (rng : List Nat) (r : TickResult) (hi : Inv gs)
    (h : grid_step gs rng = .ok r) : Inv r.gs := by
  rw [grid_step_eq gs rng hi.mid.head_in hi.mid.dir_unit, bind_ok_iff] at h
  obtain ⟨p, hp, h⟩ := h
  have hm := moved_state_mid gs hi
  apply collision_branch_inv p.1 p.2 _ r _ h
  split_ifs at hp with he
  · exact eat_apple_inv _ _ _ _ hm he hp
  · simp only [pure, Except.pure, Except.ok.injEq] at hp
    subst hp
    refine ⟨hm, ?_⟩
    obtain ⟨a, ha⟩ := hm.apple
    intro b hb
    rw [ha.apples_eq, List.mem_singleton] at hb
    subst hb
    intro hc
    exact he ((eats_single _ _ ha.apples_eq).mpr hc.symm)

theorem move_snake_inv (gs : GameState) (dir : Int) (t frame : ℚ) (rng : List Nat)
    (r : TickResult) (hi : Inv gs) (h : move_snake gs dir t frame rng = .ok r) :
    Inv r.gs := by
  unfold move_snake at h
  simp only [] at h
  split_ifs at h
  · exact grid_step_inv _ _ _ (set_direction_inv dir gs hi) h
  · simp only [pure, Except.pure, Except.ok.injEq] at h
    subst h
    exact set_direction_inv dir gs hi

/-! ## `compute_difficulty` -/

theorem compute_difficulty_range (game_time : ℚ) (score snake_size : Int) :
    ∃ q, compute_difficulty game_time score snake_size = .fin q ∧ 1 / 20 ≤ q ∧ q ≤ 1 := by
  unfold compute_difficulty float_div
  simp only []
  split_ifs with h1 h2
  · exact ⟨1 / 20, rfl, le_refl _, by norm_num⟩
  · refine ⟨1, ?_, by norm_num, le_refl _⟩
    simp only [fminf, fmaxf]
    rw [max_eq_right (by norm_num)]
  · refine ⟨_, rfl, le_max_left _ _, max_le (by norm_num) (min_le_right _ _)⟩

theorem reach_inv (gs : GameState) (t : ℚ) (h : Reach gs t) : Inv gs := by
  induction h with
  | init rng rest gs h => exact init_game_state_inv rng rest gs h
  | tick gs t dir frame rng r _ h ih => exact move_snake_inv gs dir t frame rng r ih h
  | difficulty gs t game_time speed _ h ih =>
    obtain ⟨q, hq, hlo, hhi⟩ := compute_difficulty_range game_time gs.score
      (gs.snake.body.length + 1)
    rw [hq] at h
    simp only [FloatQ.fin.injEq] at h
    subst h
    obtain ⟨⟨hh, hd, hb, ⟨a, ha⟩, hs, hbf, hsc, _, _⟩, hah⟩ := ih
    exact ⟨⟨hh, hd, hb, ⟨a, ⟨ha.apples_eq, ha.apple_in, ha.apple_body, ha.apple_flag⟩⟩, hs, hbf,
      hsc, hlo, hhi⟩, hah⟩


/-! ## Concrete runs -/

theorem start_state_init : init_game_state [5, 5, 6, 5] = .ok (start_state, []) := by
  simp [init_game_state, init_apples, init_apple_pick, INITIAL_APPLES, GetRandomValue,
    grid_write, grid_read, in_grid, GRID_WIDTH_eq, GRID_HEIGHT_eq, cleared_grid, bind,
    Except.bind, pure, Except.pure, start_state, grid_upd_apply, Cell.set_snake]

theorem start_state_reach : Reach start_state 0 :=
  Reach.init [5, 5, 6, 5] [] start_state start_state_init

theorem edge_state_init : init_game_state [39, 0, 0, 0] = .ok (edge_state, []) := by
  simp [init_game_state, init_apples, init_apple_pick, INITIAL_APPLES, GetRandomValue,
    grid_write, grid_read, in_grid, GRID_WIDTH_eq, GRID_HEIGHT_eq, cleared_grid, bind,
    Except.bind, pure, Except.pure, edge_state, grid_upd_apply, Cell.set_snake]

theorem edge_state_reach : Reach edge_state 0 :=
  Reach.init [39, 0, 0, 0] [] edge_state edge_state_init

/-! ## C1 -/

/-- C1 (the code leaves the grid): `edge_state` is what `init_game_state`
builds for head `(39, 0)` and apple `(0, 0)`; one `move_snake` tick to the
right wraps the head onto the apple, and `grow_snake`, which computes
`head - direction` without wrapping, stores `has_body` at column `-1`:
the tick ends in an out-of-range grid access. -/
theorem C1_grow_snake_leaves_grid :
    init_game_state [39, 0, 0, 0] = .ok (edge_state, []) ∧ Reach edge_state 0 ∧
      move_snake edge_state RIGHT 0 (1 / 5) [7, 7] = .error (.outOfRange (-1) 0) := by
  refine ⟨edge_state_init, edge_state_reach, ?_⟩
  simp [move_snake, set_direction, RIGHT, edge_state, grid_step, finish_step, move_head,
    int_add, int_sub, INT_MAX, INT_MIN, wrap_head, shift_body, snake_eats_apple, same_cell,
    eat_apple, grow_snake, grid_write, in_grid, GRID_WIDTH_eq, GRID_HEIGHT_eq, bind,
    Except.bind, pure, Except.pure]

/-- In every reachable state the head, the body segments and the apples are
grid indices (the out-of-range store of C1 ends the run before a state with
an out-of-range segment is left behind). -/
theorem reach_well_formed (gs : GameState) (t : ℚ) (h : Reach gs t) : WellFormed gs := by
  obtain ⟨⟨hh, hd, hb, ⟨a, ha⟩, _, _, _, _, _⟩, _⟩ := reach_inv gs t h
  refine ⟨hh, hd, hb, ?_⟩
  intro b hb'
  rw [ha.apples_eq, List.mem_singleton] at hb'
  rw [hb']; exact ha.apple_in

/-! ## C2 -/

theorem finish_step_eq (oldHead : IVector2) (gs1 : GameState) (rng : List Nat) :
    finish_step oldHead gs1 rng =
      (shift_body oldHead gs1 >>= fun gs2 =>
        (if snake_eats_apple gs2 then eat_apple gs2 rng else pure (gs2, rng)) >>= fun p =>
          if snake_collides_with_body p.1 then
            reset_game p.1 p.2 >>= fun q =>
              pure ⟨q.1, q.2.1, true, snake_eats_apple gs2, true⟩
          else pure ⟨p.1, 0, true, snake_eats_apple gs2, false⟩) := by
  unfold finish_step
  cases shift_body oldHead gs1 with
  | error e => rfl
  | ok gs2 =>
    simp only [bind, Except.bind]
    split_ifs <;> rfl

theorem finish_step_head (oldHead : IVector2) (gs1 : GameState) (rng : List Nat)
    (r : TickResult) (h : finish_step oldHead gs1 rng = .ok r) (hc : r.collided = false) :
    r.gs.snake.head = gs1.snake.head := by
  rw [finish_step_eq] at h
  simp only [bind_ok_iff] at h
  obtain ⟨gs2, h2, ⟨gs3, r1⟩, h3, h4⟩ := h
  have e2 : gs2.snake.head = gs1.snake.head := by
    unfold shift_body at h2
    split_ifs at h2
    · simp only [bind_ok_iff, pure, Except.pure, Except.ok.injEq] at h2
      obtain ⟨g, _, rfl⟩ := h2
      rfl
    · simp only [pure, Except.pure, Except.ok.injEq] at h2
      rw [← h2]
  have e3 : gs3.snake.head = gs2.snake.head := by
    split_ifs at h3
    · exact (eat_apple_frame _ _ _ _ h3).1
    · simp only [pure, Except.pure, Except.ok.injEq, Prod.mk.injEq] at h3
      rw [← h3.1]
  obtain ⟨_, _, _, h5, h6 | h6⟩ := collision_branch gs3 r1 _ r h4
  · rw [h6.2, e3, e2]
  · rw [h6.1] at h5; rw [h5] at hc; exact absurd hc (by simp)

/-- C2: on an in-range head `(x, y)` and for each of the four commands, a
`move_snake` tick that passes the timer gate first moves the head to
`((x + dx) mod GRID_WIDTH, (y + dy) mod GRID_HEIGHT)`: `move_head` returns a
state with that head, the rest of the tick (body shift, apple, collision
test and reset) runs from that state, and a tick that ends without reset
leaves that head.  On an edge with the direction pointing off the grid the
head lands on the opposite edge, the other coordinate unchanged. -/
theorem C2_head_moves_on_torus (gs : GameState) (dir dx dy : Int) (t frame : ℚ)
    (rng : List Nat) (hh : in_grid gs.snake.head.x gs.snake.head.y)
    (hdir : (dir = RIGHT ∧ dx = 1 ∧ dy = 0) ∨ (dir = LEFT ∧ dx = -1 ∧ dy = 0) ∨
      (dir = UP ∧ dx = 0 ∧ dy = -1) ∨ (dir = DOWN ∧ dx = 0 ∧ dy = 1))
    (hgate : t + frame ≥ gs.game_speed) :
    (∃ gs1, move_head (set_direction dir gs) = .ok gs1 ∧
      gs1.snake.head =
        ⟨(gs.snake.head.x + dx) % GRID_WIDTH, (gs.snake.head.y + dy) % GRID_HEIGHT⟩ ∧
      move_snake gs dir t frame rng = finish_step gs.snake.head gs1 rng) ∧
    (∀ r, move_snake gs dir t frame rng = .ok r → r.collided = false →
      r.gs.snake.head =
        ⟨(gs.snake.head.x + dx) % GRID_WIDTH, (gs.snake.head.y + dy) % GRID_HEIGHT⟩) ∧
    (gs.snake.head.x = GRID_WIDTH - 1 → dir = RIGHT →
      (⟨(gs.snake.head.x + dx) % GRID_WIDTH, (gs.snake.head.y + dy) % GRID_HEIGHT⟩ : IVector2)
        = ⟨0, gs.snake.head.y⟩) ∧
    (gs.snake.head.x = 0 → dir = LEFT →
      (⟨(gs.snake.head.x + dx) % GRID_WIDTH, (gs.snake.head.y + dy) % GRID_HEIGHT⟩ : IVector2)
        = ⟨GRID_WIDTH - 1, gs.snake.head.y⟩) ∧
    (gs.snake.head.y = 0 → dir = UP →
      (⟨(gs.snake.head.x + dx) % GRID_WIDTH, (gs.snake.head.y + dy) % GRID_HEIGHT⟩ : IVector2)
        = ⟨gs.snake.head.x, GRID_HEIGHT - 1⟩) ∧
    (gs.snake.head.y = GRID_HEIGHT - 1 → dir = DOWN →
      (⟨(gs.snake.head.x + dx) % GRID_WIDTH, (gs.snake.head.y + dy) % GRID_HEIGHT⟩ : IVector2)
        = ⟨gs.snake.head.x, 0⟩) := by
  have hsd : (set_direction dir gs).snake.direction = ⟨dx, dy⟩ := by
    rcases hdir with ⟨rfl, rfl, rfl⟩ | ⟨rfl, rfl, rfl⟩ | ⟨rfl, rfl, rfl⟩ | ⟨rfl, rfl, rfl⟩ <;>
      simp [set_direction, RIGHT, LEFT, UP, DOWN]
  have hsh : (set_direction dir gs).snake.head = gs.snake.head := by
    unfold set_direction; split_ifs <;> rfl
  have hss : (set_direction dir gs).game_speed = gs.game_speed := by
    unfold set_direction; split_ifs <;> rfl
  have hu : unit_dir (set_direction dir gs).snake.direction := by
    rw [hsd]
    rcases hdir with ⟨_, rfl, rfl⟩ | ⟨_, rfl, rfl⟩ | ⟨_, rfl, rfl⟩ | ⟨_, rfl, rfl⟩
    · exact Or.inl rfl
    · exact Or.inr (Or.inl rfl)
    · exact Or.inr (Or.inr (Or.inl rfl))
    · exact Or.inr (Or.inr (Or.inr rfl))
  have hh' : in_grid (set_direction dir gs).snake.head.x (set_direction dir gs).snake.head.y := by
    rw [hsh]; exact hh
  have hmv := move_head_ok (set_direction dir gs) hh' hu
  have hnext : next_cell (set_direction dir gs).snake.head (set_direction dir gs).snake.direction
      = ⟨(gs.snake.head.x + dx) % GRID_WIDTH, (gs.snake.head.y + dy) % GRID_HEIGHT⟩ := by
    rw [hsh, hsd]; rfl
  have hms : ∀ gs1, move_head (set_direction dir gs) = .ok gs1 →
      move_snake gs dir t frame rng = finish_step gs.snake.head gs1 rng := by
    intro gs1 h1
    have hg : t + frame ≥ (set_direction dir gs).game_speed := by rw [hss]; exact hgate
    simp only [move_snake, hg, if_true, grid_step, h1, bind, Except.bind, hsh]
  rw [in_grid_iff] at hh
  refine ⟨⟨_, hmv, hnext, hms _ hmv⟩, ?_, ?_, ?_, ?_, ?_⟩
  · intro r hr hc
    rw [hms _ hmv] at hr
    rw [finish_step_head _ _ _ _ hr hc]
    exact hnext
  · intro h1 h2
    rcases hdir with ⟨_, rfl, rfl⟩ | ⟨h3, _, _⟩ | ⟨h3, _, _⟩ | ⟨h3, _, _⟩
    · simp only [GRID_WIDTH_eq, GRID_HEIGHT_eq, IVector2.mk.injEq] at h1 ⊢; omega
    all_goals (rw [h2] at h3; simp [RIGHT, LEFT, UP, DOWN] at h3)
  · intro h1 h2
    rcases hdir with ⟨h3, _, _⟩ | ⟨_, rfl, rfl⟩ | ⟨h3, _, _⟩ | ⟨h3, _, _⟩
    · rw [h2] at h3; simp [RIGHT, LEFT, UP, DOWN] at h3
    · simp only [GRID_WIDTH_eq, GRID_HEIGHT_eq, IVector2.mk.injEq] at h1 ⊢; omega
    all_goals (rw [h2] at h3; simp [RIGHT, LEFT, UP, DOWN] at h3)
  · intro h1 h2
    rcases hdir with ⟨h3, _, _⟩ | ⟨h3, _, _⟩ | ⟨_, rfl, rfl⟩ | ⟨h3, _, _⟩
    · rw [h2] at h3; simp [RIGHT, LEFT, UP, DOWN] at h3
    · rw [h2] at h3; simp [RIGHT, LEFT, UP, DOWN] at h3
    · simp only [GRID_WIDTH_eq, GRID_HEIGHT_eq, IVector2.mk.injEq] at h1 ⊢; omega
    · rw [h2] at h3; simp [RIGHT, LEFT, UP, DOWN] at h3
  · intro h1 h2
    rcases hdir with ⟨h3, _, _⟩ | ⟨h3, _, _⟩ | ⟨h3, _, _⟩ | ⟨_, rfl, rfl⟩
    · rw [h2] at h3; simp [RIGHT, LEFT, UP, DOWN] at h3
    · rw [h2] at h3; simp [RIGHT, LEFT, UP, DOWN] at h3
    · rw [h2] at h3; simp [RIGHT, LEFT, UP, DOWN] at h3
    · simp only [GRID_WIDTH_eq, GRID_HEIGHT_eq, IVector2.mk.injEq] at h1 ⊢; omega

theorem C2_witness :
    in_grid wrap_state.snake.head.x wrap_state.snake.head.y ∧
    (0 : ℚ) + 1 / 5 ≥ wrap_state.game_speed ∧
    ∃ gs1, move_head (set_direction RIGHT wrap_state) = .ok gs1 ∧
      gs1.snake.head = ⟨(39 + 1) % GRID_WIDTH, (0 + 0) % GRID_HEIGHT⟩ ∧
      move_snake wrap_state RIGHT 0 (1 / 5) [] = finish_step ⟨39, 0⟩ gs1 [] :=
  ⟨by decide, by norm_num [wrap_state],
    (C2_head_moves_on_torus wrap_state RIGHT 1 0 0 (1 / 5) [] (by decide)
      (Or.inl ⟨rfl, rfl, rfl⟩) (by norm_num [wrap_state])).1⟩

/-! ## C3 -/

theorem neck_state_tick :
    move_snake start_state RIGHT 0 (1 / 5) [7, 7] = .ok ⟨neck_state, 0, true, true, false⟩ := by
  simp [move_snake, set_direction, RIGHT, start_state, grid_step, finish_step, move_head,
    int_add, int_sub, INT_MAX, INT_MIN, wrap_head, shift_body, snake_eats_apple, same_cell,
    eat_apple, grow_snake, remove_apple_at_head, spawn_random_apple, spawn_pick, grid_read,
    GetRandomValue, snake_collides_with_body, grid_write, in_grid, GRID_WIDTH_eq,
    GRID_HEIGHT_eq, bind, Except.bind, pure, Except.pure, neck_state, grid_upd_apply,
    cleared_grid, Cell.set_snake, Cell.set_body, Cell.set_apple, shift_loop]


theorem neck_state_reach : Reach neck_state 0 :=
  Reach.tick start_state 0 RIGHT (1 / 5) [7, 7] ⟨neck_state, 0, true, true, false⟩
    start_state_reach neck_state_tick

theorem set_direction_head (dir : Int) (gs : GameState) :
    (set_direction dir gs).snake.head = gs.snake.head := by
  unfold set_direction; split_ifs <;> rfl

theorem set_direction_body (dir : Int) (gs : GameState) :
    (set_direction dir gs).snake.body = gs.snake.body := by
  unfold set_direction; split_ifs <;> rfl

theorem set_direction_apples (dir : Int) (gs : GameState) :
    (set_direction dir gs).apples = gs.apples := by
  unfold set_direction; split_ifs <;> rfl

theorem set_direction_score (dir : Int) (gs : GameState) :
    (set_direction dir gs).score = gs.score := by
  unfold set_direction; split_ifs <;> rfl

theorem set_direction_speed (dir : Int) (gs : GameState) :
    (set_direction dir gs).game_speed = gs.game_speed := by
  unfold set_direction; split_ifs <;> rfl

theorem set_direction_grid (dir : Int) (gs : GameState) :
    (set_direction dir gs).grid = gs.grid := by
  unfold set_direction; split_ifs <;> rfl

theorem set_direction_wf (dir : Int) (gs : GameState) (hw : WellFormed gs) :
    WellFormed (set_direction dir gs) := by
  refine ⟨?_, set_direction_unit dir gs hw.dir_unit, ?_, ?_⟩
  · rw [set_direction_head]; exact hw.head_in
  · rw [set_direction_body]; exact hw.body_in
  · rw [set_direction_apples]; exact hw.apples_in

theorem move_snake_below (gs : GameState) (dir : Int) (t frame : ℚ) (rng : List Nat)
    (h : t + frame < gs.game_speed) :
    move_snake gs dir t frame rng = .ok ⟨set_direction dir gs, t + frame, false, false, false⟩ := by
  have hg : ¬ (t + frame ≥ (set_direction dir gs).game_speed) := by
    rw [set_direction_speed]; exact not_le.mpr h
  simp only [move_snake, hg, if_false, pure, Except.pure]

/-- The state `neck_state` after a call of `move_snake` with command LEFT
that stays below the timer gate: only the direction has changed. -/
theorem reversed_state_tick :
    move_snake neck_state LEFT 0 (1 / 10) []
      = .ok ⟨reversed_state, 1 / 10, false, false, false⟩ := by
  rw [move_snake_below neck_state LEFT 0 (1 / 10) [] (by norm_num [neck_state])]
  simp [set_direction, LEFT, RIGHT, reversed_state]

theorem reversed_state_reach : Reach reversed_state (1 / 10) :=
  Reach.tick neck_state 0 LEFT (1 / 10) [] ⟨reversed_state, 1 / 10, false, false, false⟩
    neck_state_reach reversed_state_tick

/-- C3 (as stated, refuted): `reversed_state` is reachable (`start_state`
after one tick to the right that eats the apple, then a call with command
LEFT below the timer gate); its direction is `(-1, 0)` and its single body
segment `(5, 5)` is the cell one step to the left of the head `(6, 5)`.  A
call with command LEFT that passes the timer gate moves the head onto that
cell and does not reset: the body still has one segment and the score is
still 1. -/
theorem C3_counterexample :
    Reach reversed_state (1 / 10) ∧
    next_cell reversed_state.snake.head reversed_state.snake.direction
      ∈ reversed_state.snake.body ∧
    next_cell reversed_state.snake.head (set_direction LEFT reversed_state).snake.direction
      ∈ reversed_state.snake.body ∧
    (1 / 10 : ℚ) + 1 / 10 ≥ reversed_state.game_speed ∧
    ∃ r, move_snake reversed_state LEFT (1 / 10) (1 / 10) [] = .ok r ∧ r.moved = true ∧
      r.collided = false ∧ r.gs.snake.head = ⟨5, 5⟩ ∧ r.gs.snake.body = [⟨6, 5⟩] ∧
      r.gs.snake.body.length ≠ 0 ∧ r.gs.score = 1 ∧ r.gs.score ≠ 0 := by
  refine ⟨reversed_state_reach, by decide, by decide,
    by norm_num [reversed_state, neck_state], ?_⟩
  have hg : (5 : ℚ)⁻¹ ≤ 10⁻¹ + 10⁻¹ := by norm_num
  simp [move_snake, set_direction, RIGHT, LEFT, reversed_state, neck_state, start_state,
    grid_step, finish_step, move_head, hg,
    int_add, int_sub, INT_MAX, INT_MIN, wrap_head, shift_body, snake_eats_apple, same_cell,
    snake_collides_with_body, grid_write, in_grid, GRID_WIDTH_eq,
    GRID_HEIGHT_eq, bind, Except.bind, pure, Except.pure, shift_loop]

theorem moved_state_wf (gs : GameState) (hw : WellFormed gs) : WellFormed (moved_state gs) := by
  refine ⟨?_, ?_, ?_, ?_⟩
  · rw [moved_state_head]; exact next_cell_in_grid _ _
  · rw [moved_state_direction]; exact hw.dir_unit
  · intro b hb
    rw [moved_state_body] at hb
    split_ifs at hb with h1
    · simp at hb
    · rcases List.mem_cons.mp hb with h2 | h2
      · rw [h2]; exact hw.head_in
      · exact hw.body_in b (List.mem_of_mem_dropLast h2)
  · rw [moved_state_apples]; exact hw.apples_in

/-- The apple branch either returns or runs out of random draws, on a state
whose positions are grid indices, whose body is not empty and whose score can
be incremented. -/
theorem eat_apple_safe (gs : GameState) (rng : List Nat) (hw : WellFormed gs)
    (hb : gs.snake.body ≠ []) (hs : INT_MIN ≤ gs.score ∧ gs.score < INT_MAX) :
    eat_apple gs rng = .error .noDraws ∨ ∃ gs' rest, eat_apple gs rng = .ok (gs', rest) := by
  obtain ⟨g2, items, h2, hsub, _⟩ := remove_apple_at_head_ok
    { gs with
      grid := grid_upd gs.grid
        (gs.snake.body.getD (gs.snake.body.length - 1) gs.snake.head).x
        (gs.snake.body.getD (gs.snake.body.length - 1) gs.snake.head).y (Cell.set_body true)
      snake := { gs.snake with body := gs.snake.body ++
        [gs.snake.body.getD (gs.snake.body.length - 1) gs.snake.head] } } hw.head_in
  simp only [eat_apple, grow_snake_nonempty gs hb hw.body_in, h2, bind, Except.bind]
  cases hp : spawn_pick g2 rng with
  | error e =>
    left
    rw [spawn_random_apple_error _ _ e hp]
    rw [spawn_pick_error _ _ _ hp]
  | ok v =>
    right
    obtain ⟨n, r⟩ := v
    have hn := (spawn_pick_ok _ _ _ _ hp).1
    rw [spawn_random_apple_of_pick _ rng r n hp]
    have hsc : int_add gs.score 1 = .ok (gs.score + 1) := by
      apply int_add_ok; simp only [INT_MIN, INT_MAX] at hs ⊢; omega
    have hold : in_grid ((items ++ [n]).getD 0 n).x ((items ++ [n]).getD 0 n).y := by
      cases items with
      | nil => simpa using hn
      | cons a l =>
        simp only [List.cons_append, List.getD_cons_zero]
        exact hw.apples_in a (hsub a (List.mem_cons_self a l))
    simp only [hold, if_true]
    split_ifs <;> simp only [hsc, pure, Except.pure] <;> exact ⟨_, _, rfl⟩

theorem collides_of_mem (gs : GameState) (h : gs.snake.head ∈ gs.snake.body) :
    snake_collides_with_body gs = true := by
  simp only [snake_collides_with_body, List.any_eq_true]
  exact ⟨_, h, (same_cell_iff _ _).mpr rfl⟩

theorem not_eats_of_not_mem (gs : GameState) (h : gs.snake.head ∉ gs.apples) :
    snake_eats_apple gs = false := by
  rw [← Bool.not_eq_true]
  simp only [snake_eats_apple, List.any_eq_true, not_exists, not_and]
  intro a ha hs
  rw [same_cell_iff] at hs
  rw [hs] at h
  exact h ha

theorem init_game_state_fields (rng rest : List Nat) (gs : GameState)
    (h : init_game_state rng = .ok (gs, rest)) :
    gs.snake.body = [] ∧ gs.apples.length = 1 ∧ gs.score = 0 ∧ gs.game_speed = 1 / 5 ∧
      gs.snake.direction = ⟨1, 0⟩ := by
  obtain ⟨hd, a, _, _, _, rfl⟩ := init_game_state_ok rng rest gs h
  exact ⟨rfl, rfl, rfl, rfl, rfl⟩

theorem init_game_state_returns (rest : List Nat) :
    ∃ gs, init_game_state (0 :: 0 :: 1 :: 0 :: rest) = .ok (gs, rest) := by
  simp [init_game_state, init_apples, init_apple_pick, INITIAL_APPLES, GetRandomValue,
    grid_write, grid_read, in_grid, GRID_WIDTH_eq, GRID_HEIGHT_eq, cleared_grid, bind,
    Except.bind, pure, Except.pure, grid_upd_apply, Cell.set_snake]

/-- A grid step that ends in a collision: `reset_game` either runs out of
random draws or leaves an empty body, one apple, score 0 and timer 0. -/
theorem reset_tail (gs3 : GameState) (rng1 : List Nat) (ate : Bool)
    (hc : snake_collides_with_body gs3 = true) :
    (if snake_collides_with_body gs3 then
        reset_game gs3 rng1 >>= fun q => pure ⟨q.1, q.2.1, true, ate, true⟩
      else pure ⟨gs3, 0, true, ate, false⟩ : Except Fault TickResult) = .error .noDraws ∨
    ∃ r, (if snake_collides_with_body gs3 then
        reset_game gs3 rng1 >>= fun q => pure ⟨q.1, q.2.1, true, ate, true⟩
      else pure ⟨gs3, 0, true, ate, false⟩ : Except Fault TickResult) = .ok r ∧
      r.collided = true ∧ r.gs.snake.body.length = 0 ∧ r.gs.apples.length = 1 ∧
      r.gs.score = 0 ∧ r.timer = 0 := by
  simp only [hc, if_true, reset_game]
  cases hi : init_game_state rng1 with
  | error e =>
    left
    rw [init_game_state_error _ _ hi]; rfl
  | ok v =>
    right
    obtain ⟨g, rest⟩ := v
    obtain ⟨h1, h2, h3, _, _⟩ := init_game_state_fields _ _ _ hi
    refine ⟨⟨g, 0, true, ate, true⟩, rfl, rfl, ?_, h2, h3, rfl⟩
    simp [h1]

/-- C3 (amended): on a state whose positions are grid indices, when the
head's next grid step lands on a cell held by a body segment other than the
last one, a `move_snake` tick that passes the timer gate resets the game:
for every random source the call either waits for draws that never come or
returns with `body.count == 0`, `apples.count == 1`, `score == 0` and the
movement timer 0; when the landing cell holds no apple, the draws
`0, 0, 1, 0` are enough for it to return. -/
theorem C3_collision_resets (gs : GameState) (dir : Int) (t frame : ℚ)
    (hw : WellFormed gs) (hs : INT_MIN ≤ gs.score ∧ gs.score < INT_MAX)
    (hgate : t + frame ≥ gs.game_speed)
    (hit : next_cell gs.snake.head (set_direction dir gs).snake.direction
      ∈ gs.snake.body.dropLast) :
    (∀ rng, move_snake gs dir t frame rng = .error .noDraws ∨
      ∃ r, move_snake gs dir t frame rng = .ok r ∧ r.collided = true ∧
        r.gs.snake.body.length = 0 ∧ r.gs.apples.length = 1 ∧ r.gs.score = 0 ∧
        r.timer = 0) ∧
    (next_cell gs.snake.head (set_direction dir gs).snake.direction ∉ gs.apples →
      ∃ r, move_snake gs dir t frame [0, 0, 1, 0] = .ok r ∧ r.collided = true ∧
        r.gs.snake.body.length = 0 ∧ r.gs.apples.length = 1 ∧ r.gs.score = 0 ∧
        r.timer = 0) := by
  have hw0 := set_direction_wf dir gs hw
  have hg : t + frame ≥ (set_direction dir gs).game_speed := by
    rw [set_direction_speed]; exact hgate
  have hne : (set_direction dir gs).snake.body ≠ [] := by
    rw [set_direction_body]; intro h; rw [h] at hit; simp at hit
  have hmb : (moved_state (set_direction dir gs)).snake.body
      = gs.snake.head :: gs.snake.body.dropLast := by
    rw [moved_state_body, if_neg hne, set_direction_head, set_direction_body]
  have hmh : (moved_state (set_direction dir gs)).snake.head
      = next_cell gs.snake.head (set_direction dir gs).snake.direction := by
    rw [moved_state_head, set_direction_head]
  have hmne : (moved_state (set_direction dir gs)).snake.body ≠ [] := by rw [hmb]; simp
  have hms : INT_MIN ≤ (moved_state (set_direction dir gs)).score ∧
      (moved_state (set_direction dir gs)).score < INT_MAX := by
    rw [moved_state_score, set_direction_score]; exact hs
  have hmc : snake_collides_with_body (moved_state (set_direction dir gs)) = true := by
    apply collides_of_mem
    rw [hmh, hmb]
    exact List.mem_cons_of_mem _ hit
  have hstep : ∀ rng, move_snake gs dir t frame rng =
      ((if snake_eats_apple (moved_state (set_direction dir gs)) then
          eat_apple (moved_state (set_direction dir gs)) rng
        else pure (moved_state (set_direction dir gs), rng)) >>= fun p =>
        if snake_collides_with_body p.1 then
          reset_game p.1 p.2 >>= fun q =>
            pure ⟨q.1, q.2.1, true, snake_eats_apple (moved_state (set_direction dir gs)), true⟩
        else pure ⟨p.1, 0, true, snake_eats_apple (moved_state (set_direction dir gs)),
          false⟩) := by
    intro rng
    simp only [move_snake, hg, if_true]
    exact grid_step_eq _ rng hw0.head_in hw0.dir_unit
  constructor
  · intro rng
    rw [hstep rng]
    by_cases he : snake_eats_apple (moved_state (set_direction dir gs)) = true
    · simp only [he, if_true]
      rcases eat_apple_safe _ rng (moved_state_wf _ hw0) hmne hms with herr | ⟨gs3, r1, hok⟩
      · left; rw [herr]; rfl
      · rw [hok]
        obtain ⟨f1, _, _, _, tl, f5⟩ := eat_apple_frame _ _ _ _ hok
        have hc3 : snake_collides_with_body gs3 = true := by
          apply collides_of_mem
          rw [f1, f5, hmh, hmb]
          exact List.mem_append_left _ (List.mem_cons_of_mem _ hit)
        exact reset_tail gs3 r1 true hc3
    · simp only [he]
      exact reset_tail _ rng _ hmc
  · intro hna
    rw [hstep]
    have he : snake_eats_apple (moved_state (set_direction dir gs)) = false := by
      apply not_eats_of_not_mem
      rw [hmh, moved_state_apples, set_direction_apples]; exact hna
    simp only [he]
    rcases reset_tail (moved_state (set_direction dir gs)) [0, 0, 1, 0] false hmc with h | h
    · obtain ⟨g, hg0⟩ := init_game_state_returns []
      simp only [hmc, if_true, reset_game, hg0, bind, Except.bind, pure, Except.pure] at h
      simp at h
    · exact h

theorem C3_witness :
    WellFormed curled_state ∧
    next_cell curled_state.snake.head (set_direction DOWN curled_state).snake.direction
      ∈ curled_state.snake.body.dropLast ∧
    ∃ r, move_snake curled_state DOWN 0 (1 / 5) [0, 0, 1, 0] = .ok r ∧ r.collided = true ∧
      r.gs.snake.body.length = 0 ∧ r.gs.apples.length = 1 ∧ r.gs.score = 0 ∧ r.timer = 0 :=
  have hw : WellFormed curled_state := ⟨by decide, by decide, by decide, by decide⟩
  ⟨hw, by decide,
    (C3_collision_resets curled_state DOWN 0 (1 / 5) hw (by decide)
      (by norm_num [curled_state]) (by decide)).2 (by decide)⟩


/-! ## C4 -/

theorem move_head_frame (gs gs1 : GameState) (h : move_head gs = .ok gs1) :
    gs1.snake.body = gs.snake.body ∧ gs1.apples = gs.apples ∧ gs1.score = gs.score ∧
      gs1.game_speed = gs.game_speed ∧ gs1.snake.direction = gs.snake.direction := by
  unfold move_head at h
  simp only [bind_ok_iff, pure, Except.pure, Except.ok.injEq] at h
  obtain ⟨g1, _, hx, _, hy, _, g2, _, rfl⟩ := h
  exact ⟨rfl, rfl, rfl, rfl, rfl⟩

theorem shift_body_frame (oldHead : IVector2) (gs gs2 : GameState)
    (h : shift_body oldHead gs = .ok gs2) :
    gs2.snake.body.length = gs.snake.body.length ∧ gs2.snake.head = gs.snake.head ∧
      gs2.apples = gs.apples ∧ gs2.score = gs.score ∧ gs2.game_speed = gs.game_speed ∧
      gs2.snake.direction = gs.snake.direction := by
  unfold shift_body at h
  split_ifs at h
  · simp only [bind_ok_iff, pure, Except.pure, Except.ok.injEq] at h
    obtain ⟨g, _, rfl⟩ := h
    refine ⟨?_, rfl, rfl, rfl, rfl, rfl⟩
    simp [shift_loop_length]
  · simp only [pure, Except.pure, Except.ok.injEq] at h
    subst h
    exact ⟨rfl, rfl, rfl, rfl, rfl, rfl⟩

/-- One call of `move_snake` that does not reset adds one body segment when
it consumes an apple and none otherwise. -/
theorem move_snake_body_count (gs : GameState) (dir : Int) (t frame : ℚ) (rng : List Nat)
    (r : TickResult) (h : move_snake gs dir t frame rng = .ok r) (hc : r.collided = false) :
    r.gs.snake.body.length = gs.snake.body.length + (if r.ateApple then 1 else 0) := by
  unfold move_snake at h
  simp only [] at h
  split_ifs at h
  · unfold grid_step at h
    simp only [bind_ok_iff] at h
    obtain ⟨gs1, h1, h⟩ := h
    rw [finish_step_eq] at h
    simp only [bind_ok_iff] at h
    obtain ⟨gs2, h2, ⟨gs3, r1⟩, h3, h4⟩ := h
    have e1 := (move_head_frame _ _ h1).1
    have e2 := (shift_body_frame _ _ _ h2).1
    obtain ⟨_, _, ha, h5, h6 | h6⟩ := collision_branch gs3 r1 _ r h4
    · rw [h6.2, ha]
      split_ifs at h3 with he
      · obtain ⟨_, _, _, _, tl, f5⟩ := eat_apple_frame _ _ _ _ h3
        rw [f5, he, List.length_append, e2, e1, set_direction_body]; simp
      · simp only [pure, Except.pure, Except.ok.injEq, Prod.mk.injEq] at h3
        simp only [Bool.not_eq_true] at he
        rw [← h3.1, he, e2, e1, set_direction_body]; simp
    · rw [h6.1] at h5; rw [h5] at hc; exact absurd hc (by simp)
  · simp only [pure, Except.pure, Except.ok.injEq] at h
    subst h
    simp [set_direction_body]

theorem final_state_cons (gs : GameState) (r : TickResult) (rs : List TickResult) :
    final_state gs (r :: rs) = final_state r.gs rs := by
  cases rs with
  | nil => rfl
  | cons r' rs' =>
    simp only [final_state, List.getLast?_cons_cons]
    cases h : (r' :: rs').getLast? with
    | none => simp at h
    | some x => rfl

theorem run_ticks_cons (gs : GameState) (t : ℚ) (i : TickInput) (rest : List TickInput)
    (trace : List TickResult) (h : run_ticks gs t (i :: rest) = .ok trace) :
    ∃ r rs, move_snake gs i.dir t i.frame i.rng = .ok r ∧
      run_ticks r.gs r.timer rest = .ok rs ∧ trace = r :: rs := by
  unfold run_ticks at h
  simp only [bind_ok_iff, pure, Except.pure, Except.ok.injEq] at h
  obtain ⟨r, h1, rs, h2, h3⟩ := h
  exact ⟨r, rs, h1, h2, h3.symm⟩

theorem run_ticks_body_count (inputs : List TickInput) (gs : GameState) (t : ℚ)
    (trace : List TickResult) (h : run_ticks gs t inputs = .ok trace)
    (hc : ∀ r ∈ trace, r.collided = false) :
    (final_state gs trace).snake.body.length
      = gs.snake.body.length + trace.countP (fun r => r.ateApple) := by
  induction inputs generalizing gs t trace with
  | nil =>
    simp only [run_ticks, pure, Except.pure, Except.ok.injEq] at h
    subst h; rfl
  | cons i rest ih =>
    obtain ⟨r, rs, h1, h2, rfl⟩ := run_ticks_cons gs t i rest trace h
    rw [final_state_cons, ih r.gs r.timer rs h2 (fun x hx => hc x (List.mem_cons_of_mem _ hx)),
      move_snake_body_count gs i.dir t i.frame i.rng r h1 (hc r (List.mem_cons_self _ _)),
      List.countP_cons]
    split_ifs <;> simp_all
    omega

theorem run_ticks_take (inputs : List TickInput) (gs : GameState) (t : ℚ)
    (trace : List TickResult) (h : run_ticks gs t inputs = .ok trace) (k : Nat) :
    run_ticks gs t (inputs.take k) = .ok (trace.take k) := by
  induction inputs generalizing gs t trace k with
  | nil =>
    simp only [run_ticks, pure, Except.pure, Except.ok.injEq] at h
    subst h; simp [run_ticks, pure, Except.pure]
  | cons i rest ih =>
    obtain ⟨r, rs, h1, h2, rfl⟩ := run_ticks_cons gs t i rest trace h
    cases k with
    | zero => simp [run_ticks, pure, Except.pure]
    | succ k =>
      simp only [List.take_succ_cons, run_ticks, h1, ih r.gs r.timer rs h2 k, bind,
        Except.bind, pure, Except.pure]

/-- C4: start from a state built by `init_game_state` and make any calls of
`move_snake`, none of which resets.  After the first `k` calls, for every
`k`, `body.count` is the number of those calls that consumed an apple: each
apple-consuming call adds exactly one segment and every other call leaves
the count unchanged.  In particular after the whole run `body.count == N`
for the `N` calls that consumed an apple. -/
theorem C4_body_count_is_apples_eaten (rng0 rest0 : List Nat) (gs0 : GameState)
    (inputs : List TickInput) (trace : List TickResult)
    (hinit : init_game_state rng0 = .ok (gs0, rest0))
    (hrun : run_ticks gs0 0 inputs = .ok trace)
    (hno : ∀ r ∈ trace, r.collided = false) :
    (final_state gs0 trace).snake.body.length = trace.countP (fun r => r.ateApple) ∧
    (∀ k, (final_state gs0 (trace.take k)).snake.body.length
        = (trace.take k).countP (fun r => r.ateApple)) ∧
    (∀ k (hk : k < trace.length),
      (final_state gs0 (trace.take (k + 1))).snake.body.length
        = (final_state gs0 (trace.take k)).snake.body.length
          + (if (trace.get ⟨k, hk⟩).ateApple then 1 else 0)) := by
  have h0 : gs0.snake.body.length = 0 := by
    rw [(init_game_state_fields _ _ _ hinit).1]; rfl
  have hpre : ∀ k, (final_state gs0 (trace.take k)).snake.body.length
      = (trace.take k).countP (fun r => r.ateApple) := by
    intro k
    have := run_ticks_body_count _ gs0 0 _ (run_ticks_take inputs gs0 0 trace hrun k)
      (fun r hr => hno r (List.mem_of_mem_take hr))
    rw [this, h0, Nat.zero_add]
  refine ⟨?_, hpre, ?_⟩
  · have := run_ticks_body_count _ gs0 0 _ hrun hno
    rw [this, h0, Nat.zero_add]
  · intro k hk
    rw [hpre (k + 1), hpre k, List.take_succ, List.countP_append]
    simp only [List.get_eq_getElem, List.getElem?_eq_getElem hk, Option.toList_some,
      List.countP_singleton]

theorem C4_witness :
    init_game_state [5, 5, 6, 5] = .ok (start_state, []) ∧
    run_ticks start_state 0 [⟨RIGHT, 1 / 5, [7, 7]⟩] = .ok [⟨neck_state, 0, true, true, false⟩] ∧
    (final_state start_state [⟨neck_state, 0, true, true, false⟩]).snake.body.length
      = List.countP (fun r => r.ateApple) [(⟨neck_state, 0, true, true, false⟩ : TickResult)] :=
  have hrun : run_ticks start_state 0 [⟨RIGHT, 1 / 5, [7, 7]⟩]
      = .ok [⟨neck_state, 0, true, true, false⟩] := by
    simp only [run_ticks, neck_state_tick, bind, Except.bind, pure, Except.pure]
  ⟨start_state_init, hrun,
    (C4_body_count_is_apples_eaten [5, 5, 6, 5] [] start_state [⟨RIGHT, 1 / 5, [7, 7]⟩]
      [⟨neck_state, 0, true, true, false⟩] start_state_init hrun (by simp)).1⟩


/-! ## C5, C6 -/

/-- C5: in every state reachable from `init_game_state` by `move_snake`
ticks (and difficulty updates), whatever the random source returns, every
position of the apple list is a grid cell whose `has_apple` flag is set, and
every grid cell whose `has_apple` flag is set occurs exactly once in the
apple list. -/
theorem C5_apple_list_matches_grid (gs : GameState) (t : ℚ) (h : Reach gs t) :
    (∀ p ∈ gs.apples, in_grid p.x p.y ∧ (gs.grid p.y p.x).has_apple = true) ∧
    (∀ x y, in_grid x y → (gs.grid y x).has_apple = true →
      gs.apples.count ⟨x, y⟩ = 1) := by
  obtain ⟨⟨_, _, _, ⟨a, ha⟩, _, _, _, _, _⟩, _⟩ := reach_inv gs t h
  constructor
  · intro p hp
    rw [ha.apples_eq, List.mem_singleton] at hp
    subst hp
    exact ⟨ha.apple_in, (ha.apple_flag p.x p.y ha.apple_in).mpr ⟨rfl, rfl⟩⟩
  · intro x y hxy hf
    obtain ⟨h1, h2⟩ := (ha.apple_flag x y hxy).mp hf
    rw [ha.apples_eq, h1, h2]
    simp

theorem C5_witness :
    Reach neck_state 0 ∧
    (∀ p ∈ neck_state.apples, in_grid p.x p.y ∧ (neck_state.grid p.y p.x).has_apple = true) ∧
    (∀ x y, in_grid x y → (neck_state.grid y x).has_apple = true →
      neck_state.apples.count ⟨x, y⟩ = 1) :=
  ⟨neck_state_reach, C5_apple_list_matches_grid neck_state 0 neck_state_reach⟩

/-- C6: in every state reachable from `init_game_state` by `move_snake`
ticks the apple list has between 1 and 20 entries and no cell occurs in it
twice. -/
theorem C6_apple_count_bounds (gs : GameState) (t : ℚ) (h : Reach gs t) :
    1 ≤ gs.apples.length ∧ gs.apples.length ≤ 20 ∧ gs.apples.Nodup := by
  obtain ⟨⟨_, _, _, ⟨a, ha⟩, _, _, _, _, _⟩, _⟩ := reach_inv gs t h
  rw [ha.apples_eq]
  simp

theorem C6_witness :
    Reach neck_state 0 ∧ 1 ≤ neck_state.apples.length ∧ neck_state.apples.length ≤ 20 ∧
      neck_state.apples.Nodup :=
  ⟨neck_state_reach, C6_apple_count_bounds neck_state 0 neck_state_reach⟩

/-! ## C8, C9 -/

/-- C8: over exact rational arithmetic `compute_difficulty` returns exactly
0.05 for `time = 100000`, `score = 10000` and a snake size of 1000 (also for
the size 1001 that `main` passes for a body of 1000 segments), and exactly
0.2 when its three inputs are zero. -/
theorem C8_difficulty_values :
    compute_difficulty 100000 10000 1000 = .fin (1 / 20) ∧
    compute_difficulty 100000 10000 (1000 + 1) = .fin (1 / 20) ∧
    compute_difficulty 0 0 0 = .fin (1 / 5) := by
  refine ⟨?_, ?_, ?_⟩ <;>
    norm_num [compute_difficulty, float_div, fminf, fmaxf]

/-- The call of `main` for an empty body passes the size 1: with time and
score zero the interval is `0.2 / 1.05`. -/
theorem compute_difficulty_main_at_zero :
    compute_difficulty 0 0 (((([] : List IVector2).length : Nat) : Int) + 1) = .fin (4 / 21) := by
  norm_num [compute_difficulty, float_div, fminf, fmaxf]

/-- C9: for every game time, score and snake size, negative ones included,
the value `compute_difficulty` stores is a finite number in `[0.05, 1.0]`;
and in every state reachable from `init_game_state` by `move_snake` ticks
and `compute_difficulty` updates, `game_speed` lies in `[0.05, 1.0]` and
`score >= 0`. -/
theorem C9_speed_and_score_bounds (gs : GameState) (t : ℚ) (h : Reach gs t) :
    (∀ (game_time : ℚ) (score snake_size : Int),
      ∃ q, compute_difficulty game_time score snake_size = .fin q ∧ 1 / 20 ≤ q ∧ q ≤ 1) ∧
    1 / 20 ≤ gs.game_speed ∧ gs.game_speed ≤ 1 ∧ 0 ≤ gs.score := by
  obtain ⟨⟨_, _, _, _, _, _, hsc, hlo, hhi⟩, _⟩ := reach_inv gs t h
  refine ⟨compute_difficulty_range, hlo, hhi, ?_⟩
  rw [hsc]; exact Int.natCast_nonneg _

theorem C9_witness :
    Reach neck_state 0 ∧
    (∀ (game_time : ℚ) (score snake_size : Int),
      ∃ q, compute_difficulty game_time score snake_size = .fin q ∧ 1 / 20 ≤ q ∧ q ≤ 1) ∧
    1 / 20 ≤ neck_state.game_speed ∧ neck_state.game_speed ≤ 1 ∧ 0 ≤ neck_state.score :=
  ⟨neck_state_reach, C9_speed_and_score_bounds neck_state 0 neck_state_reach⟩


/-! ## C10 -/

/-- C10: let `spawn_random_apple` accept the new cell `n`.  On a state whose
apple list holds exactly 20 apples `a0 :: tl` the call returns with the
apple list `tl ++ [n]` (20 entries, the old order kept), the `has_apple` flag
of `a0` cleared and every cell other than `a0` and `n` as before.  On a state
with fewer than 20 apples it returns with the old list followed by `n` and
the `has_apple` flag of `n` set. -/
theorem C10_fifo_eviction (gs : GameState) (rng rest : List Nat) (n : IVector2)
    (hpick : spawn_pick gs.grid rng = .ok (n, rest)) :
    (∀ a0 tl, gs.apples = a0 :: tl → tl.length = 19 → in_grid a0.x a0.y →
      ∃ gs', spawn_random_apple gs rng = .ok (gs', rest) ∧ gs'.apples = tl ++ [n] ∧
        gs'.apples.length = 20 ∧ (gs'.grid a0.y a0.x).has_apple = false ∧
        ∀ x y, ¬ (x = a0.x ∧ y = a0.y) → ¬ (x = n.x ∧ y = n.y) → gs'.grid y x = gs.grid y x) ∧
    (gs.apples.length < 20 →
      ∃ gs', spawn_random_apple gs rng = .ok (gs', rest) ∧ gs'.apples = gs.apples ++ [n] ∧
        (gs'.grid n.y n.x).has_apple = true ∧
        ∀ x y, ¬ (x = n.x ∧ y = n.y) → gs'.grid y x = gs.grid y x) ∧
    (in_grid n.x n.y ∧ (gs.grid n.y n.x).has_snake = false ∧
      (gs.grid n.y n.x).has_body = false ∧ (gs.grid n.y n.x).has_apple = false) := by
  refine ⟨?_, ?_, spawn_pick_ok _ _ _ _ hpick⟩
  · intro a0 tl ha hl hin
    rw [spawn_random_apple_of_pick gs rng rest n hpick]
    have h1 : 20 < gs.apples.length + 1 := by rw [ha]; simp [hl]
    have h2 : (gs.apples ++ [n]).getD 0 n = a0 := by rw [ha]; rfl
    rw [if_pos h1, h2, if_pos hin]
    refine ⟨_, rfl, ?_, ?_, ?_, ?_⟩
    · rw [ha]; rfl
    · rw [ha]; simp [hl]
    · simp [upd_apple_apple]
    · intro x y hx hn
      simp only [grid_upd_apply]
      rw [if_neg (fun h => hx ⟨h.2, h.1⟩), if_neg (fun h => hn ⟨h.2, h.1⟩)]
  · intro hl
    rw [spawn_random_apple_of_pick gs rng rest n hpick]
    have h1 : ¬ (20 < gs.apples.length + 1) := by omega
    rw [if_neg h1]
    refine ⟨_, rfl, rfl, ?_, ?_⟩
    · simp [upd_apple_apple]
    · intro x y hn
      simp only [grid_upd_apply]
      rw [if_neg (fun h => hn ⟨h.2, h.1⟩)]

theorem full_state_pick : spawn_pick full_state.grid [25, 3] = .ok (⟨25, 3⟩, []) := by
  simp [spawn_pick, full_state, GetRandomValue, grid_read, in_grid, GRID_WIDTH_eq,
    GRID_HEIGHT_eq, bind, Except.bind, pure, Except.pure]

theorem C10_witness :
    spawn_pick full_state.grid [25, 3] = .ok (⟨25, 3⟩, []) ∧
    full_state.apples = ⟨0, 0⟩ :: (List.range 19).map (fun i => (⟨(i : Int) + 1, 0⟩ : IVector2)) ∧
    ∃ gs', spawn_random_apple full_state [25, 3] = .ok (gs', []) ∧
      gs'.apples = (List.range 19).map (fun i => (⟨(i : Int) + 1, 0⟩ : IVector2)) ++ [⟨25, 3⟩] ∧
      gs'.apples.length = 20 ∧ (gs'.grid 0 0).has_apple = false ∧
      ∀ x y, ¬ (x = 0 ∧ y = 0) → ¬ (x = 25 ∧ y = 3) → gs'.grid y x = full_state.grid y x :=
  ⟨full_state_pick, by decide,
    (C10_fifo_eviction full_state [25, 3] [] ⟨25, 3⟩ full_state_pick).1 ⟨0, 0⟩
      ((List.range 19).map (fun i => (⟨(i : Int) + 1, 0⟩ : IVector2))) (by decide) (by decide)
      (by decide)⟩


/-! ## C7 -/

theorem same_but_direction_set (dir : Int) (gs : GameState) :
    same_but_direction (set_direction dir gs) gs :=
  ⟨set_direction_grid dir gs, set_direction_head dir gs, set_direction_body dir gs,
    set_direction_apples dir gs, set_direction_speed dir gs, set_direction_score dir gs⟩

theorem same_but_direction_trans (a b c : GameState) (h1 : same_but_direction a b)
    (h2 : same_but_direction b c) : same_but_direction a c :=
  ⟨h1.1.trans h2.1, h1.2.1.trans h2.2.1, h1.2.2.1.trans h2.2.2.1,
    h1.2.2.2.1.trans h2.2.2.2.1, h1.2.2.2.2.1.trans h2.2.2.2.2.1,
    h1.2.2.2.2.2.trans h2.2.2.2.2.2⟩

theorem final_timer_cons (t : ℚ) (r : TickResult) (rs : List TickResult) :
    final_timer t (r :: rs) = final_timer r.timer rs := by
  cases rs with
  | nil => rfl
  | cons r' rs' =>
    simp only [final_timer, List.getLast?_cons_cons]
    cases h : (r' :: rs').getLast? with
    | none => simp at h
    | some x => rfl

/-- Calls of `move_snake` whose accumulated timer stays below `game_speed`
all return, move nothing and add their frame times to the timer. -/
theorem run_ticks_below (inputs : List TickInput) (gs : GameState) (t : ℚ)
    (h : ∀ k, 1 ≤ k → k ≤ inputs.length →
      t + ((inputs.take k).map (fun i => i.frame)).sum < gs.game_speed) :
    ∃ trace, run_ticks gs t inputs = .ok trace ∧ trace.length = inputs.length ∧
      (∀ r ∈ trace, r.moved = false ∧ same_but_direction r.gs gs) ∧
      same_but_direction (final_state gs trace) gs ∧
      final_timer t trace = t + (inputs.map (fun i => i.frame)).sum ∧
      (unit_dir gs.snake.direction → unit_dir (final_state gs trace).snake.direction) := by
  induction inputs generalizing gs t with
  | nil =>
    refine ⟨[], rfl, rfl, ?_, ⟨rfl, rfl, rfl, rfl, rfl, rfl⟩, ?_, fun hu => hu⟩
    · intro r hr; simp at hr
    · simp [final_timer]
  | cons i rest ih =>
    have h1 : t + i.frame < gs.game_speed := by
      have := h 1 (le_refl 1) (by simp)
      simpa using this
    have hrest : ∀ k, 1 ≤ k → k ≤ rest.length →
        (t + i.frame) + ((rest.take k).map (fun i => i.frame)).sum
          < (set_direction i.dir gs).game_speed := by
      intro k hk1 hk2
      have := h (k + 1) (by omega) (by simp; omega)
      rw [set_direction_speed]
      simpa [add_assoc] using this
    obtain ⟨rs, e1, e2, e3, e4, e5, e6⟩ := ih (set_direction i.dir gs) (t + i.frame) hrest
    refine ⟨⟨set_direction i.dir gs, t + i.frame, false, false, false⟩ :: rs,
      ?_, ?_, ?_, ?_, ?_, ?_⟩
    · simp only [run_ticks, move_snake_below gs i.dir t i.frame i.rng h1, e1, bind, Except.bind,
        pure, Except.pure]
    · simp [e2]
    · intro r hr
      rcases List.mem_cons.mp hr with h2 | h2
      · rw [h2]; exact ⟨rfl, same_but_direction_set i.dir gs⟩
      · exact ⟨(e3 r h2).1,
          same_but_direction_trans _ _ _ (e3 r h2).2 (same_but_direction_set i.dir gs)⟩
    · rw [final_state_cons]
      exact same_but_direction_trans _ _ _ e4 (same_but_direction_set i.dir gs)
    · rw [final_timer_cons, e5]
      simp [add_assoc]
    · intro hu
      rw [final_state_cons]
      exact e6 (set_direction_unit i.dir gs hu)

theorem move_head_head (gs gs1 : GameState) (h : move_head gs = .ok gs1) :
    gs1.snake.head = wrap_head ⟨gs.snake.head.x + gs.snake.direction.x,
      gs.snake.head.y + gs.snake.direction.y⟩ := by
  unfold move_head at h
  simp only [bind_ok_iff, pure, Except.pure, Except.ok.injEq] at h
  obtain ⟨g1, _, hx, h1, hy, h2, g2, _, rfl⟩ := h
  unfold int_add at h1 h2
  split_ifs at h1 h2
  simp only [Except.ok.injEq] at h1 h2
  rw [← h1, ← h2]

/-- A call of `move_snake` whose accumulated timer reaches `game_speed`
returns with timer 0 and, unless it resets, with the head one grid step on. -/
theorem move_snake_crossing (gs : GameState) (dir : Int) (t frame : ℚ) (rng : List Nat)
    (r : TickResult) (hg : t + frame ≥ gs.game_speed)
    (h : move_snake gs dir t frame rng = .ok r) :
    r.moved = true ∧ r.timer = 0 ∧
      (r.collided = false → r.gs.snake.head =
        wrap_head ⟨gs.snake.head.x + (set_direction dir gs).snake.direction.x,
          gs.snake.head.y + (set_direction dir gs).snake.direction.y⟩) := by
  have hg' : t + frame ≥ (set_direction dir gs).game_speed := by
    rw [set_direction_speed]; exact hg
  simp only [move_snake, hg', if_true, grid_step, bind_ok_iff] at h
  obtain ⟨gs1, h1, h2⟩ := h
  have hh := move_head_head _ _ h1
  rw [set_direction_head] at hh
  refine ⟨?_, ?_, ?_⟩
  · rw [finish_step_eq] at h2
    simp only [bind_ok_iff] at h2
    obtain ⟨gs2, _, ⟨gs3, r1⟩, _, h4⟩ := h2
    exact (collision_branch gs3 r1 _ r h4).2.1
  · rw [finish_step_eq] at h2
    simp only [bind_ok_iff] at h2
    obtain ⟨gs2, _, ⟨gs3, r1⟩, _, h4⟩ := h2
    exact (collision_branch gs3 r1 _ r h4).1
  · intro hc
    rw [finish_step_head _ _ _ _ h2 hc, hh]

/-- On a state whose positions are grid indices, a gated call whose landing
cell holds no apple and none of the shifted body segments returns with the
head one grid step on, the body shifted and the timer 0. -/
theorem move_snake_plain_step (gs : GameState) (dir : Int) (t frame : ℚ) (rng : List Nat)
    (hw : WellFormed gs) (hg : t + frame ≥ gs.game_speed)
    (hna : next_cell gs.snake.head (set_direction dir gs).snake.direction ∉ gs.apples)
    (hnb : next_cell gs.snake.head (set_direction dir gs).snake.direction
      ∉ gs.snake.body.dropLast) :
    move_snake gs dir t frame rng
      = .ok ⟨moved_state (set_direction dir gs), 0, true, false, false⟩ := by
  have hw0 := set_direction_wf dir gs hw
  have hg' : t + frame ≥ (set_direction dir gs).game_speed := by
    rw [set_direction_speed]; exact hg
  have hmh : (moved_state (set_direction dir gs)).snake.head
      = next_cell gs.snake.head (set_direction dir gs).snake.direction := by
    rw [moved_state_head, set_direction_head]
  have he : snake_eats_apple (moved_state (set_direction dir gs)) = false := by
    apply not_eats_of_not_mem
    rw [hmh, moved_state_apples, set_direction_apples]; exact hna
  have hc : snake_collides_with_body (moved_state (set_direction dir gs)) = false := by
    rw [← Bool.not_eq_true]
    simp only [snake_collides_with_body, List.any_eq_true, not_exists, not_and]
    intro b hb hs
    rw [same_cell_iff] at hs
    rw [moved_state_body, set_direction_body, set_direction_head] at hb
    split_ifs at hb with h1
    · simp at hb
    · rcases List.mem_cons.mp hb with h2 | h2
      · have hne := next_cell_ne gs.snake.head (set_direction dir gs).snake.direction
          hw.head_in hw0.dir_unit
        rw [← hmh, ← hs, h2] at hne
        exact hne rfl
      · rw [hs, hmh] at h2; exact hnb h2
  simp only [move_snake, hg', if_true]
  rw [grid_step_eq _ rng hw0.head_in hw0.dir_unit]
  simp only [he, Bool.false_eq_true, if_false, bind, Except.bind, pure, Except.pure, hc]

theorem well_formed_of_same (a b : GameState) (h : same_but_direction a b)
    (hu : unit_dir a.snake.direction) (hw : WellFormed b) : WellFormed a := by
  obtain ⟨_, h2, h3, h4, _, _⟩ := h
  refine ⟨?_, hu, ?_, ?_⟩
  · rw [h2]; exact hw.head_in
  · rw [h3]; exact hw.body_in
  · rw [h4]; exact hw.apples_in

/-- C7: from any state, calls of `move_snake` whose accumulated timer (the
previous timer plus the frame times so far) stays below `game_speed` all
return without a positional move: head, body, apples, grid, score and
`game_speed` stay as they are and the timer becomes the sum.  The first call
at which the accumulated timer reaches or exceeds `game_speed` performs one
grid step and leaves the timer at exactly 0, whatever the excess: if it
returns, it has moved, its timer is 0 and, unless it reset the game, the head
is one step (with wrap-around) from where it was; on a state whose positions
are grid indices, when the landing cell holds no apple and no body segment
that stays after the shift, it does return, with the head on the next cell
of the torus and the body length unchanged. -/
theorem C7_timer_gate (gs : GameState) (t : ℚ) (inputs : List TickInput) (last : TickInput)
    (hbelow : ∀ k, 1 ≤ k → k ≤ inputs.length →
      t + ((inputs.take k).map (fun i => i.frame)).sum < gs.game_speed)
    (hcross : t + (inputs.map (fun i => i.frame)).sum + last.frame ≥ gs.game_speed) :
    ∃ trace, run_ticks gs t inputs = .ok trace ∧ trace.length = inputs.length ∧
      (∀ r ∈ trace, r.moved = false ∧ same_but_direction r.gs gs) ∧
      same_but_direction (final_state gs trace) gs ∧
      final_timer t trace = t + (inputs.map (fun i => i.frame)).sum ∧
      (∀ r, move_snake (final_state gs trace) last.dir (final_timer t trace) last.frame
          last.rng = .ok r →
        r.moved = true ∧ r.timer = 0 ∧
        (r.collided = false → r.gs.snake.head = wrap_head
          ⟨gs.snake.head.x
              + (set_direction last.dir (final_state gs trace)).snake.direction.x,
            gs.snake.head.y
              + (set_direction last.dir (final_state gs trace)).snake.direction.y⟩)) ∧
      (WellFormed gs →
        next_cell gs.snake.head (set_direction last.dir (final_state gs trace)).snake.direction
          ∉ gs.apples →
        next_cell gs.snake.head (set_direction last.dir (final_state gs trace)).snake.direction
          ∉ gs.snake.body.dropLast →
        ∃ r, move_snake (final_state gs trace) last.dir (final_timer t trace) last.frame
            last.rng = .ok r ∧
          r.moved = true ∧ r.timer = 0 ∧ r.collided = false ∧
          r.gs.snake.head = next_cell gs.snake.head
            (set_direction last.dir (final_state gs trace)).snake.direction ∧
          r.gs.snake.body.length = gs.snake.body.length) := by
  obtain ⟨trace, e1, e2, e3, e4, e5, e6⟩ := run_ticks_below inputs gs t hbelow
  have hg : final_timer t trace + last.frame ≥ (final_state gs trace).game_speed := by
    rw [e5, e4.2.2.2.2.1]; exact hcross
  refine ⟨trace, e1, e2, e3, e4, e5, ?_, ?_⟩
  · intro r hr
    have := move_snake_crossing _ _ _ _ _ r hg hr
    rw [e4.2.1] at this
    exact this
  · intro hw hna hnb
    have hw' : WellFormed (final_state gs trace) :=
      well_formed_of_same _ _ e4 (e6 hw.dir_unit) hw
    rw [← e4.2.1] at hna hnb
    rw [← e4.2.2.2.1] at hna
    rw [← e4.2.2.1] at hnb
    refine ⟨_, move_snake_plain_step _ _ _ _ last.rng hw' hg hna hnb, rfl, rfl, rfl, ?_, ?_⟩
    · show (moved_state _).snake.head = _
      rw [moved_state_head, set_direction_head, e4.2.1]
    · show (moved_state _).snake.body.length = _
      rw [moved_state_length, set_direction_body, e4.2.2.1]

theorem C7_witness :
    (∀ k, 1 ≤ k → k ≤ [(⟨RIGHT, 1 / 10, []⟩ : TickInput)].length →
      (0 : ℚ) + (([(⟨RIGHT, 1 / 10, []⟩ : TickInput)].take k).map (fun i => i.frame)).sum
        < start_state.game_speed) ∧
    ∃ trace, run_ticks start_state 0 [⟨RIGHT, 1 / 10, []⟩] = .ok trace ∧
      (∀ r ∈ trace, r.moved = false ∧ same_but_direction r.gs start_state) ∧
      final_timer 0 trace = 0 + ([(⟨RIGHT, 1 / 10, []⟩ : TickInput)].map (fun i => i.frame)).sum ∧
      ∃ r, move_snake (final_state start_state trace) UP (final_timer 0 trace) (1 / 10) []
          = .ok r ∧ r.moved = true ∧ r.timer = 0 ∧ r.collided = false :=
  have hbelow : ∀ k, 1 ≤ k → k ≤ [(⟨RIGHT, 1 / 10, []⟩ : TickInput)].length →
      (0 : ℚ) + (([(⟨RIGHT, 1 / 10, []⟩ : TickInput)].take k).map (fun i => i.frame)).sum
        < start_state.game_speed := by
    intro k h1 h2
    have hk : k = 1 := by simp at h2; omega
    subst hk
    norm_num [start_state]
  have hw : WellFormed start_state := ⟨by decide, by decide, by decide, by decide⟩
  match C7_timer_gate start_state 0 [⟨RIGHT, 1 / 10, []⟩] ⟨UP, 1 / 10, []⟩ hbelow
      (by norm_num [start_state]) with
  | ⟨trace, e1, _, e3, e4, e5, _, e7⟩ =>
    ⟨hbelow, trace, e1, e3, e5,
      match e7 hw (by
          have hd : (set_direction UP (final_state start_state trace)).snake.direction
              = ⟨0, -1⟩ := by simp [set_direction, UP, RIGHT, LEFT]
          rw [hd]; decide) (by simp [start_state]) with
      | ⟨r, h1, h2, h3, h4, _, _⟩ => ⟨r, h1, h2, h3, h4⟩⟩


/-! ## C11, C13, C14 -/

/-- C11: in every state reachable from `init_game_state` by `move_snake`
ticks exactly one grid cell has `has_snake == true`, the cell of the head:
the head is a grid cell, its flag is set, and a grid cell whose flag is set
is the head cell. -/
theorem C11_one_snake_cell (gs : GameState) (t : ℚ) (h : Reach gs t) :
    in_grid gs.snake.head.x gs.snake.head.y ∧
    (gs.grid gs.snake.head.y gs.snake.head.x).has_snake = true ∧
    (∀ x y, in_grid x y → (gs.grid y x).has_snake = true →
      x = gs.snake.head.x ∧ y = gs.snake.head.y) := by
  obtain ⟨⟨hh, _, _, _, hs, _, _, _, _⟩, _⟩ := reach_inv gs t h
  exact ⟨hh, (hs _ _ hh).mpr ⟨rfl, rfl⟩, fun x y hxy hf => (hs x y hxy).mp hf⟩

theorem C11_witness :
    Reach neck_state 0 ∧
    in_grid neck_state.snake.head.x neck_state.snake.head.y ∧
    (neck_state.grid neck_state.snake.head.y neck_state.snake.head.x).has_snake = true ∧
    (∀ x y, in_grid x y → (neck_state.grid y x).has_snake = true →
      x = neck_state.snake.head.x ∧ y = neck_state.snake.head.y) :=
  ⟨neck_state_reach, C11_one_snake_cell neck_state 0 neck_state_reach⟩

/-- C13: in every state reachable from `init_game_state` by `move_snake`
ticks, taken between two calls, no grid cell has `has_apple` together with
`has_snake` or `has_body`; and no apple of the apple list is the head cell
or a cell flagged `has_body`. -/
theorem C13_apple_cells_are_free (gs : GameState) (t : ℚ) (h : Reach gs t) :
    (∀ x y, in_grid x y → (gs.grid y x).has_apple = true →
      (gs.grid y x).has_snake = false ∧ (gs.grid y x).has_body = false) ∧
    (∀ a ∈ gs.apples, a ≠ gs.snake.head ∧ (gs.grid a.y a.x).has_body = false) := by
  obtain ⟨⟨_, _, _, ⟨a, ha⟩, hs, _, _, _, _⟩, hah⟩ := reach_inv gs t h
  have hne : a ≠ gs.snake.head := hah a (by rw [ha.apples_eq]; simp)
  constructor
  · intro x y hxy hf
    obtain ⟨h1, h2⟩ := (ha.apple_flag x y hxy).mp hf
    subst h1 h2
    refine ⟨?_, ha.apple_body⟩
    rw [← Bool.not_eq_true]
    intro hc
    obtain ⟨h3, h4⟩ := (hs _ _ hxy).mp hc
    apply hne
    cases a; cases hd : gs.snake.head
    rw [hd] at h3 h4
    simp only at h3 h4
    rw [h3, h4]
  · intro b hb
    rw [ha.apples_eq, List.mem_singleton] at hb
    subst hb
    exact ⟨hne, ha.apple_body⟩

theorem C13_witness :
    Reach neck_state 0 ∧
    (∀ x y, in_grid x y → (neck_state.grid y x).has_apple = true →
      (neck_state.grid y x).has_snake = false ∧ (neck_state.grid y x).has_body = false) ∧
    (∀ a ∈ neck_state.apples,
      a ≠ neck_state.snake.head ∧ (neck_state.grid a.y a.x).has_body = false) :=
  ⟨neck_state_reach, C13_apple_cells_are_free neck_state 0 neck_state_reach⟩

/-- C14: in every state reachable from `init_game_state` by `move_snake`
ticks every position of the body list is a grid cell whose `has_body` flag
is set. -/
theorem C14_body_cells_flagged (gs : GameState) (t : ℚ) (h : Reach gs t) :
    ∀ b ∈ gs.snake.body, in_grid b.x b.y ∧ (gs.grid b.y b.x).has_body = true := by
  obtain ⟨⟨_, _, hb, _, _, hbf, _, _, _⟩, _⟩ := reach_inv gs t h
  exact fun b hb' => ⟨hb b hb', hbf b hb'⟩

theorem C14_witness :
    Reach neck_state 0 ∧
    ∀ b ∈ neck_state.snake.body, in_grid b.x b.y ∧ (neck_state.grid b.y b.x).has_body = true :=
  ⟨neck_state_reach, C14_body_cells_flagged neck_state 0 neck_state_reach⟩


/-! ## C12 -/

/-- C12 (the code leaves stale `has_body` flags): `reversed_state` is
reachable, with head `(6, 5)` and the single body segment `(5, 5)`, whose
`has_body` flag `grow_snake` has set.  A call with command LEFT that passes
the timer gate moves the head onto `(5, 5)` and the segment onto `(6, 5)`;
nothing clears the `has_body` flag of the cell the body has left, so in the
reachable state it returns the cell `(5, 5)` has `has_snake` and `has_body`
both set, although no body segment is on it. -/
theorem C12_head_on_stale_body_flag :
    ∃ r, move_snake reversed_state LEFT (1 / 10) (1 / 10) [] = .ok r ∧
      Reach r.gs r.timer ∧ r.collided = false ∧ r.gs.snake.head = ⟨5, 5⟩ ∧
      r.gs.snake.body = [⟨6, 5⟩] ∧
      (r.gs.grid 5 5).has_snake = true ∧ (r.gs.grid 5 5).has_body = true := by
  have hg : (5 : ℚ)⁻¹ ≤ 10⁻¹ + 10⁻¹ := by norm_num
  have h : ∃ r, move_snake reversed_state LEFT (1 / 10) (1 / 10) [] = .ok r ∧
      r.collided = false ∧ r.gs.snake.head = ⟨5, 5⟩ ∧ r.gs.snake.body = [⟨6, 5⟩] ∧
      (r.gs.grid 5 5).has_snake = true ∧ (r.gs.grid 5 5).has_body = true := by
    simp [move_snake, set_direction, RIGHT, LEFT, reversed_state, neck_state, start_state,
      grid_step, finish_step, move_head, hg, int_add, int_sub, INT_MAX, INT_MIN, wrap_head,
      shift_body, snake_eats_apple, same_cell, snake_collides_with_body, grid_write, in_grid,
      GRID_WIDTH_eq, GRID_HEIGHT_eq, bind, Except.bind, pure, Except.pure, shift_loop,
      grid_upd_apply, cleared_grid, Cell.set_snake, Cell.set_body, Cell.set_apple]
  obtain ⟨r, hr, hp⟩ := h
  exact ⟨r, hr, Reach.tick _ _ _ _ _ r reversed_state_reach hr, hp⟩

theorem collides_iff_mem (gs : GameState) :
    snake_collides_with_body gs = true ↔ gs.snake.head ∈ gs.snake.body := by
  simp only [snake_collides_with_body, List.any_eq_true]
  constructor
  · rintro ⟨b, hb, hs⟩
    rw [same_cell_iff] at hs
    rw [← hs]; exact hb
  · intro h
    exact ⟨_, h, (same_cell_iff _ _).mpr rfl⟩

/-- A call of `move_snake` on a state whose head is on no body segment
leaves such a state: the collision test ends every grid step. -/
theorem move_snake_head_free (gs : GameState) (dir : Int) (t frame : ℚ) (rng : List Nat)
    (r : TickResult) (hf : gs.snake.head ∉ gs.snake.body)
    (h : move_snake gs dir t frame rng = .ok r) : r.gs.snake.head ∉ r.gs.snake.body := by
  unfold move_snake at h
  simp only [] at h
  split_ifs at h
  · unfold grid_step at h
    simp only [bind_ok_iff] at h
    obtain ⟨gs1, _, h⟩ := h
    rw [finish_step_eq] at h
    simp only [bind_ok_iff] at h
    obtain ⟨gs2, _, ⟨gs3, r1⟩, _, h4⟩ := h
    obtain ⟨_, _, _, _, h6 | h6⟩ := collision_branch gs3 r1 _ r h4
    · rw [h6.2]
      intro hc
      have := (collides_iff_mem gs3).mpr hc
      rw [h6.1] at this
      exact Bool.false_ne_true this
    · obtain ⟨_, rest, h7⟩ := h6
      rw [(init_game_state_fields _ _ _ h7).1]
      simp
  · simp only [pure, Except.pure, Except.ok.injEq] at h
    subst h
    rw [set_direction_head, set_direction_body]; exact hf

/-- In every reachable state the head is on no segment of the body list. -/
theorem reach_head_free (gs : GameState) (t : ℚ) (h : Reach gs t) :
    gs.snake.head ∉ gs.snake.body := by
  induction h with
  | init rng rest gs h => rw [(init_game_state_fields _ _ _ h).1]; simp
  | tick gs t dir frame rng r _ h ih => exact move_snake_head_free gs dir t frame rng r ih h
  | difficulty gs t game_time speed _ _ ih => exact ih


/-! ## C16, C17 -/

theorem shift_body_body (oldHead : IVector2) (gs gs2 : GameState)
    (h : shift_body oldHead gs = .ok gs2) :
    gs2.snake.body
      = if gs.snake.body = [] then [] else oldHead :: gs.snake.body.dropLast := by
  unfold shift_body at h
  split_ifs at h with h1
  · have hne : gs.snake.body ≠ [] := List.length_pos.mp h1
    simp only [bind_ok_iff, pure, Except.pure, Except.ok.injEq] at h
    obtain ⟨g, _, rfl⟩ := h
    rw [if_neg hne]
    exact shift_body_list _ _ h1
  · have he : gs.snake.body = [] := by
      cases hb : gs.snake.body with
      | nil => rfl
      | cons a l => rw [hb] at h1; simp at h1
    simp only [pure, Except.pure, Except.ok.injEq] at h
    rw [← h, if_pos he, he]

/-- A gated call of `move_snake` that neither eats nor resets leaves the body
list shifted by one: the old head in front, the old tail dropped. -/
theorem move_snake_body_shift (gs : GameState) (dir : Int) (t frame : ℚ) (rng : List Nat)
    (r : TickResult) (hg : t + frame ≥ gs.game_speed)
    (h : move_snake gs dir t frame rng = .ok r) (ha : r.ateApple = false)
    (hc : r.collided = false) :
    r.gs.snake.body
      = if gs.snake.body = [] then [] else gs.snake.head :: gs.snake.body.dropLast := by
  have hg' : t + frame ≥ (set_direction dir gs).game_speed := by
    rw [set_direction_speed]; exact hg
  simp only [move_snake, hg', if_true, grid_step, bind_ok_iff] at h
  obtain ⟨gs1, h1, h2⟩ := h
  rw [finish_step_eq] at h2
  simp only [bind_ok_iff] at h2
  obtain ⟨gs2, h3, ⟨gs3, r1⟩, h4, h5⟩ := h2
  obtain ⟨_, _, h6, h7, h8 | h8⟩ := collision_branch gs3 r1 _ r h5
  · rw [ha] at h6
    rw [← h6] at h4
    simp only [Bool.false_eq_true, if_false, pure, Except.pure, Except.ok.injEq,
      Prod.mk.injEq] at h4
    rw [h8.2, ← h4.1, shift_body_body _ _ _ h3, (move_head_frame _ _ h1).1,
      set_direction_body, set_direction_head]
  · rw [h8.1] at h7; rw [h7] at hc; exact absurd hc (by simp)

/-- C16: let a `move_snake` tick pass the timer gate and neither eat an apple
nor collide.  With a body `b_0 .. b_{k-1}`, `k >= 1`, and head `h` it leaves
the body `h, b_0, .., b_{k-2}` of the same length: segment 0 is the pre-move
head, segment `i + 1` is the old segment `i`, the old tail position is
dropped; an empty body stays empty.  On a state whose positions are grid
indices such a tick returns whenever the landing cell holds no apple and no
body segment other than the last. -/
theorem C16_body_follows_head (gs : GameState) (dir : Int) (t frame : ℚ) (rng : List Nat)
    (hg : t + frame ≥ gs.game_speed) :
    (∀ r, move_snake gs dir t frame rng = .ok r → r.ateApple = false → r.collided = false →
      r.gs.snake.body.length = gs.snake.body.length ∧
      (gs.snake.body = [] → r.gs.snake.body = []) ∧
      (gs.snake.body ≠ [] → r.gs.snake.body = gs.snake.head :: gs.snake.body.dropLast) ∧
      (gs.snake.body ≠ [] → r.gs.snake.body[0]? = some gs.snake.head) ∧
      (∀ i, i + 1 < gs.snake.body.length → r.gs.snake.body[i + 1]? = gs.snake.body[i]?)) ∧
    (WellFormed gs →
      next_cell gs.snake.head (set_direction dir gs).snake.direction ∉ gs.apples →
      next_cell gs.snake.head (set_direction dir gs).snake.direction
        ∉ gs.snake.body.dropLast →
      ∃ r, move_snake gs dir t frame rng = .ok r ∧ r.ateApple = false ∧
        r.collided = false) := by
  constructor
  · intro r h ha hc
    have hb := move_snake_body_shift gs dir t frame rng r hg h ha hc
    by_cases he : gs.snake.body = []
    · rw [if_pos he] at hb
      refine ⟨by rw [hb, he], fun _ => hb, fun hne => absurd he hne,
        fun hne => absurd he hne, ?_⟩
      intro i hi
      rw [he] at hi; simp at hi
    · rw [if_neg he] at hb
      have hl : 0 < gs.snake.body.length := List.length_pos.mpr he
      refine ⟨?_, fun h0 => absurd h0 he, fun _ => hb, fun _ => by rw [hb]; simp, ?_⟩
      · rw [hb]; simp; omega
      · intro i hi
        rw [hb, List.getElem?_cons_succ, List.dropLast_eq_take, List.getElem?_take]
        have : i < gs.snake.body.length - 1 := by omega
        rw [if_pos this]
  · intro hw hna hnb
    exact ⟨_, move_snake_plain_step gs dir t frame rng hw hg hna hnb, rfl, rfl⟩

theorem C16_witness :
    (1 / 10 : ℚ) + 1 / 10 ≥ reversed_state.game_speed ∧
    (∀ r, move_snake reversed_state UP (1 / 10) (1 / 10) [] = .ok r → r.ateApple = false →
      r.collided = false →
      r.gs.snake.body.length = reversed_state.snake.body.length ∧
      (reversed_state.snake.body = [] → r.gs.snake.body = []) ∧
      (reversed_state.snake.body ≠ [] →
        r.gs.snake.body = reversed_state.snake.head :: reversed_state.snake.body.dropLast) ∧
      (reversed_state.snake.body ≠ [] → r.gs.snake.body[0]? = some reversed_state.snake.head) ∧
      (∀ i, i + 1 < reversed_state.snake.body.length →
        r.gs.snake.body[i + 1]? = reversed_state.snake.body[i]?)) ∧
    ∃ r, move_snake reversed_state UP (1 / 10) (1 / 10) [] = .ok r ∧ r.ateApple = false ∧
      r.collided = false :=
  have hg : (1 / 10 : ℚ) + 1 / 10 ≥ reversed_state.game_speed := by
    norm_num [reversed_state, neck_state]
  have hw : WellFormed reversed_state := ⟨by decide, by decide, by decide, by decide⟩
  ⟨hg, (C16_body_follows_head reversed_state UP (1 / 10) (1 / 10) [] hg).1,
    (C16_body_follows_head reversed_state UP (1 / 10) (1 / 10) [] hg).2 hw (by decide)
      (by decide)⟩

/-- C17: for each of the four commands, a `move_snake` tick whose accumulated
timer stays below `game_speed` returns with the direction set to the unit
vector of the command and the timer increased by the frame time; the head,
the body list, the apple list, every grid cell, the score and `game_speed`
are as before. -/
theorem C17_below_gate_only_direction (gs : GameState) (dir dx dy : Int) (t frame : ℚ)
    (rng : List Nat)
    (hdir : (dir = RIGHT ∧ dx = 1 ∧ dy = 0) ∨ (dir = LEFT ∧ dx = -1 ∧ dy = 0) ∨
      (dir = UP ∧ dx = 0 ∧ dy = -1) ∨ (dir = DOWN ∧ dx = 0 ∧ dy = 1))
    (hlt : t + frame < gs.game_speed) :
    ∃ r, move_snake gs dir t frame rng = .ok r ∧ r.moved = false ∧
      r.gs.snake.direction = ⟨dx, dy⟩ ∧ r.timer = t + frame ∧
      r.gs.snake.head = gs.snake.head ∧ r.gs.snake.body = gs.snake.body ∧
      r.gs.apples = gs.apples ∧ r.gs.grid = gs.grid ∧ r.gs.score = gs.score ∧
      r.gs.game_speed = gs.game_speed := by
  refine ⟨_, move_snake_below gs dir t frame rng hlt, rfl, ?_, rfl, set_direction_head dir gs,
    set_direction_body dir gs, set_direction_apples dir gs, set_direction_grid dir gs,
    set_direction_score dir gs, set_direction_speed dir gs⟩
  rcases hdir with ⟨rfl, rfl, rfl⟩ | ⟨rfl, rfl, rfl⟩ | ⟨rfl, rfl, rfl⟩ | ⟨rfl, rfl, rfl⟩ <;>
    simp [set_direction, RIGHT, LEFT, UP, DOWN]

theorem C17_witness :
    (0 : ℚ) + 1 / 10 < neck_state.game_speed ∧
    ∃ r, move_snake neck_state UP 0 (1 / 10) [] = .ok r ∧ r.moved = false ∧
      r.gs.snake.direction = ⟨0, -1⟩ ∧ r.timer = 0 + 1 / 10 ∧
      r.gs.snake.head = neck_state.snake.head ∧ r.gs.snake.body = neck_state.snake.body ∧
      r.gs.apples = neck_state.apples ∧ r.gs.grid = neck_state.grid ∧
      r.gs.score = neck_state.score ∧ r.gs.game_speed = neck_state.game_speed :=
  have hlt : (0 : ℚ) + 1 / 10 < neck_state.game_speed := by norm_num [neck_state]
  ⟨hlt, C17_below_gate_only_direction neck_state UP 0 (-1) 0 (1 / 10) []
    (Or.inr (Or.inr (Or.inl ⟨rfl, rfl, rfl⟩))) hlt⟩


/-! ## C18, C19 -/

/-- A call of `move_snake` that resets leaves a state built by
`init_game_state`. -/
theorem move_snake_collided_init (gs : GameState) (dir : Int) (t frame : ℚ) (rng : List Nat)
    (r : TickResult) (h : move_snake gs dir t frame rng = .ok r) (hc : r.collided = true) :
    ∃ rng1 rest, init_game_state rng1 = .ok (r.gs, rest) := by
  unfold move_snake at h
  simp only [] at h
  split_ifs at h
  · unfold grid_step at h
    simp only [bind_ok_iff] at h
    obtain ⟨gs1, _, h⟩ := h
    rw [finish_step_eq] at h
    simp only [bind_ok_iff] at h
    obtain ⟨gs2, _, ⟨gs3, r1⟩, _, h4⟩ := h
    obtain ⟨_, _, _, h5, h6 | h6⟩ := collision_branch gs3 r1 _ r h4
    · rw [h6.1] at h5; rw [h5] at hc; exact absurd hc (by simp)
    · obtain ⟨_, rest, h7⟩ := h6
      exact ⟨_, rest, h7⟩
  · simp only [pure, Except.pure, Except.ok.injEq] at h
    subst h
    exact absurd hc (by simp)

/-- C18: in every state reachable from `init_game_state` by `move_snake`
ticks `score == body.count`.  Both are 0 in a state built by
`init_game_state` and after a tick that resets, and a tick from a reachable
state changes the score exactly when it changes `body.count`. -/
theorem C18_score_is_body_count (gs : GameState) (t : ℚ) (h : Reach gs t) :
    gs.score = gs.snake.body.length ∧
    (∀ dir frame rng r, move_snake gs dir t frame rng = .ok r →
      r.gs.score = r.gs.snake.body.length ∧
      (r.gs.score ≠ gs.score ↔ r.gs.snake.body.length ≠ gs.snake.body.length) ∧
      (r.collided = true → r.gs.score = 0 ∧ r.gs.snake.body.length = 0)) ∧
    (∀ rng rest gs0, init_game_state rng = .ok (gs0, rest) →
      gs0.score = 0 ∧ gs0.snake.body.length = 0) := by
  have h0 := (reach_inv gs t h).mid.score_eq
  refine ⟨h0, ?_, ?_⟩
  · intro dir frame rng r hr
    have h1 := (reach_inv _ _ (Reach.tick gs t dir frame rng r h hr)).mid.score_eq
    refine ⟨h1, ?_, ?_⟩
    · rw [h1, h0]
      simp only [ne_eq, Nat.cast_inj]
    · intro hc
      obtain ⟨rng1, rest, hi⟩ := move_snake_collided_init gs dir t frame rng r hr hc
      obtain ⟨e1, _, e3, _, _⟩ := init_game_state_fields _ _ _ hi
      exact ⟨e3, by rw [e1]; rfl⟩
  · intro rng rest gs0 hi
    obtain ⟨e1, _, e3, _, _⟩ := init_game_state_fields _ _ _ hi
    exact ⟨e3, by rw [e1]; rfl⟩

theorem C18_witness :
    Reach neck_state 0 ∧ neck_state.score = neck_state.snake.body.length ∧
    (∀ dir frame rng r, move_snake neck_state dir 0 frame rng = .ok r →
      r.gs.score = r.gs.snake.body.length ∧
      (r.gs.score ≠ neck_state.score ↔
        r.gs.snake.body.length ≠ neck_state.snake.body.length) ∧
      (r.collided = true → r.gs.score = 0 ∧ r.gs.snake.body.length = 0)) :=
  ⟨neck_state_reach, (C18_score_is_body_count neck_state 0 neck_state_reach).1,
    (C18_score_is_body_count neck_state 0 neck_state_reach).2.1⟩

/-- C19: in every state reachable from `init_game_state` by `move_snake`
ticks the apple list holds exactly one apple.  In a tick from such a state
that eats, `spawn_random_apple` is entered with an empty apple list (after
`grow_snake` and `remove_apple_at_head`): the test `count > 20` fails for
whatever cell is appended, and the call leaves a list of one apple. -/
theorem C19_one_apple_no_eviction (gs : GameState) (t : ℚ) (h : Reach gs t) :
    gs.apples.length = 1 ∧
    (∀ dir m gs1 gs2,
      (move_head (set_direction dir gs) >>= shift_body gs.snake.head) = .ok m →
      snake_eats_apple m = true → grow_snake m = .ok gs1 →
      remove_apple_at_head gs1 = .ok gs2 →
      gs2.apples.length = 0 ∧
      (∀ n : IVector2, ¬ (gs2.apples ++ [n]).length > 20) ∧
      (∀ rng gs3 rest, spawn_random_apple gs2 rng = .ok (gs3, rest) →
        gs3.apples.length = 1)) := by
  have hi := reach_inv gs t h
  constructor
  · obtain ⟨a, ha⟩ := hi.mid.apple
    rw [ha.apples_eq]; rfl
  · intro dir m gs1 gs2 hm he h1 h2
    have hi0 := set_direction_inv dir gs hi
    have hms := move_shift_ok (set_direction dir gs) hi0.mid.head_in hi0.mid.dir_unit
    rw [set_direction_head] at hms
    rw [hms] at hm
    simp only [Except.ok.injEq] at hm
    subst hm
    have hmid := moved_state_mid _ hi0
    obtain ⟨a, ha⟩ := hmid.apple
    have hha := (eats_single _ a ha.apples_eq).mp he
    obtain ⟨tl, _, hgs1⟩ := grow_snake_form _ gs1 hmid.head_in hmid.dir_unit hmid.body_in h1
    have ha1 : gs1.apples = [a] := by rw [hgs1]; exact ha.apples_eq
    have hh1 : gs1.snake.head = a := by rw [hgs1]; exact hha
    rw [remove_apple_single gs1 a ha1 hh1 ha.apple_in] at h2
    simp only [Except.ok.injEq] at h2
    have e2 : gs2.apples = [] := by rw [← h2]
    refine ⟨by rw [e2]; rfl, fun n => by rw [e2]; simp, ?_⟩
    intro rng gs3 rest h3
    obtain ⟨n, _, hgs3⟩ := spawn_random_apple_form gs2 gs3 rng rest (by rw [e2]; simp) h3
    rw [hgs3, e2]; rfl

theorem C19_witness :
    Reach start_state 0 ∧ start_state.apples.length = 1 :=
  ⟨start_state_reach, (C19_one_apple_no_eviction start_state 0 start_state_reach).1⟩


/-! ## C20 -/

/-- A gated call whose landing cell holds no apple but a body segment that
stays after the shift runs `reset_game` on the draws it is given. -/
theorem move_snake_hit_step (gs : GameState) (dir : Int) (t frame : ℚ) (rng : List Nat)
    (hw : WellFormed gs) (hg : t + frame ≥ gs.game_speed)
    (hit : next_cell gs.snake.head (set_direction dir gs).snake.direction
      ∈ gs.snake.body.dropLast)
    (hna : next_cell gs.snake.head (set_direction dir gs).snake.direction ∉ gs.apples) :
    move_snake gs dir t frame rng = .error .noDraws ∨
    ∃ r, move_snake gs dir t frame rng = .ok r ∧ r.collided = true ∧
      r.gs.snake.body.length = 0 ∧ r.gs.apples.length = 1 ∧ r.gs.score = 0 ∧
      r.timer = 0 := by
  have hw0 := set_direction_wf dir gs hw
  have hg' : t + frame ≥ (set_direction dir gs).game_speed := by
    rw [set_direction_speed]; exact hg
  have hne : (set_direction dir gs).snake.body ≠ [] := by
    rw [set_direction_body]; intro h; rw [h] at hit; simp at hit
  have hmh : (moved_state (set_direction dir gs)).snake.head
      = next_cell gs.snake.head (set_direction dir gs).snake.direction := by
    rw [moved_state_head, set_direction_head]
  have hmc : snake_collides_with_body (moved_state (set_direction dir gs)) = true := by
    apply collides_of_mem
    rw [hmh, moved_state_body, if_neg hne, set_direction_head, set_direction_body]
    exact List.mem_cons_of_mem _ hit
  have he : snake_eats_apple (moved_state (set_direction dir gs)) = false := by
    apply not_eats_of_not_mem
    rw [hmh, moved_state_apples, set_direction_apples]; exact hna
  simp only [move_snake, hg', if_true]
  rw [grid_step_eq _ rng hw0.head_in hw0.dir_unit]
  simp only [he, Bool.false_eq_true, if_false, bind, Except.bind, pure, Except.pure]
  exact reset_tail (moved_state (set_direction dir gs)) rng false hmc

/-- C20: `move_snake` has no guard against reversing.  On a state whose
positions are grid indices, let body segment 0 (the neck) be the cell one
step from the head in the commanded direction, with no apple on it, and let
the tick pass the timer gate.  With at least 2 body segments the tick resets
the game (it returns with an empty body, one apple, score 0 and timer 0, or
waits for random draws; the draws `0, 0, 1, 0` are enough).  With exactly 1
segment it returns without reset, the head on the old neck cell and the
single segment on the old head cell. -/
theorem C20_reversing (gs : GameState) (dir : Int) (t frame : ℚ) (b0 : IVector2)
    (rest : List IVector2) (hw : WellFormed gs) (hg : t + frame ≥ gs.game_speed)
    (hb : gs.snake.body = b0 :: rest)
    (hneck : b0 = next_cell gs.snake.head (set_direction dir gs).snake.direction)
    (hna : b0 ∉ gs.apples) :
    (rest ≠ [] →
      (∀ rng, move_snake gs dir t frame rng = .error .noDraws ∨
        ∃ r, move_snake gs dir t frame rng = .ok r ∧ r.collided = true ∧
          r.gs.snake.body.length = 0 ∧ r.gs.apples.length = 1 ∧ r.gs.score = 0 ∧
          r.timer = 0) ∧
      ∃ r, move_snake gs dir t frame [0, 0, 1, 0] = .ok r ∧ r.collided = true) ∧
    (rest = [] →
      ∀ rng, ∃ r, move_snake gs dir t frame rng = .ok r ∧ r.collided = false ∧
        r.ateApple = false ∧ r.gs.snake.head = b0 ∧ r.gs.snake.body = [gs.snake.head] ∧
        r.gs.score = gs.score ∧ r.gs.apples = gs.apples ∧ r.timer = 0) := by
  constructor
  · intro hr
    have hit : next_cell gs.snake.head (set_direction dir gs).snake.direction
        ∈ gs.snake.body.dropLast := by
      rw [← hneck, hb]
      cases rest with
      | nil => exact absurd rfl hr
      | cons b1 tl => simp [List.dropLast]
    have hna' : next_cell gs.snake.head (set_direction dir gs).snake.direction ∉ gs.apples := by
      rw [← hneck]; exact hna
    refine ⟨fun rng => move_snake_hit_step gs dir t frame rng hw hg hit hna', ?_⟩
    rcases move_snake_hit_step gs dir t frame [0, 0, 1, 0] hw hg hit hna' with h | ⟨r, h1, h2, _⟩
    · exfalso
      have hw0 := set_direction_wf dir gs hw
      have hg' : t + frame ≥ (set_direction dir gs).game_speed := by
        rw [set_direction_speed]; exact hg
      simp only [move_snake, hg', if_true] at h
      rw [grid_step_eq _ _ hw0.head_in hw0.dir_unit] at h
      obtain ⟨g, hg0⟩ := init_game_state_returns []
      have he : snake_eats_apple (moved_state (set_direction dir gs)) = false := by
        apply not_eats_of_not_mem
        rw [moved_state_head, set_direction_head, moved_state_apples, set_direction_apples]
        exact hna'
      simp only [he, Bool.false_eq_true, if_false, bind, Except.bind, pure, Except.pure,
        reset_game, hg0] at h
      split_ifs at h
    · exact ⟨r, h1, h2⟩
  · intro hr rng
    subst hr
    have hna' : next_cell gs.snake.head (set_direction dir gs).snake.direction ∉ gs.apples := by
      rw [← hneck]; exact hna
    have hnb : next_cell gs.snake.head (set_direction dir gs).snake.direction
        ∉ gs.snake.body.dropLast := by
      rw [hb]; simp
    refine ⟨_, move_snake_plain_step gs dir t frame rng hw hg hna' hnb, rfl, rfl, ?_, ?_, ?_,
      ?_, rfl⟩
    · show (moved_state _).snake.head = _
      rw [moved_state_head, set_direction_head, hneck]
    · show (moved_state _).snake.body = _
      rw [moved_state_body, set_direction_body, set_direction_head, hb]
      simp
    · show (moved_state _).score = _
      rw [moved_state_score, set_direction_score]
    · show (moved_state _).apples = _
      rw [moved_state_apples, set_direction_apples]

theorem C20_witness :
    WellFormed reversed_state ∧ reversed_state.snake.body = [⟨5, 5⟩] ∧
    (⟨5, 5⟩ : IVector2)
      = next_cell reversed_state.snake.head (set_direction LEFT reversed_state).snake.direction ∧
    (∀ rng, ∃ r, move_snake reversed_state LEFT (1 / 10) (1 / 10) rng = .ok r ∧
      r.collided = false ∧ r.ateApple = false ∧ r.gs.snake.head = ⟨5, 5⟩ ∧
      r.gs.snake.body = [reversed_state.snake.head] ∧ r.gs.score = reversed_state.score ∧
      r.gs.apples = reversed_state.apples ∧ r.timer = 0) ∧
    WellFormed curled_state ∧
    (⟨4, 5⟩ : IVector2)
      = next_cell curled_state.snake.head (set_direction LEFT curled_state).snake.direction ∧
    ∃ r, move_snake curled_state LEFT 0 (1 / 5) [0, 0, 1, 0] = .ok r ∧ r.collided = true :=
  have hw : WellFormed reversed_state := ⟨by decide, by decide, by decide, by decide⟩
  have hw2 : WellFormed curled_state := ⟨by decide, by decide, by decide, by decide⟩
  ⟨hw, rfl, by decide,
    (C20_reversing reversed_state LEFT (1 / 10) (1 / 10) ⟨5, 5⟩ [] hw
      (by norm_num [reversed_state, neck_state]) rfl (by decide) (by decide)).2 rfl,
    hw2, by decide,
    ((C20_reversing curled_state LEFT 0 (1 / 5) ⟨4, 5⟩ [⟨4, 6⟩, ⟨5, 6⟩, ⟨6, 6⟩] hw2
      (by norm_num [curled_state]) rfl (by decide) (by decide)).1 (by simp)).2⟩

/-! ## C15 -/

theorem flagged_state_same : same_but_stale_body start_state flagged_state := by
  refine ⟨rfl, rfl, rfl, rfl, ?_⟩
  intro x y
  refine ⟨?_, ?_, ?_⟩
  · simp [flagged_state, upd_body_apple]
  · simp [flagged_state, upd_body_snake]
  · intro h; simp [start_state] at h

/-- C15 (as stated, refuted): `start_state` and `flagged_state` are equal
except for the `has_body` flag of the cell `(7, 7)`, which is not in the
(empty) body list.  The same tick to the right with the same random values
`7, 7, 8, 8` eats the apple in both; `spawn_random_apple` accepts `(7, 7)`
in the first state and rejects it in the second, where the new apple lands
on `(8, 8)`: the apple lists differ. -/
theorem C15_counterexample :
    same_but_stale_body start_state flagged_state ∧
    (⟨7, 7⟩ : IVector2) ∉ start_state.snake.body ∧
    ∃ r r', move_snake start_state RIGHT 0 (1 / 5) [7, 7, 8, 8] = .ok r ∧
      move_snake flagged_state RIGHT 0 (1 / 5) [7, 7, 8, 8] = .ok r' ∧
      r.gs.apples = [⟨7, 7⟩] ∧ r'.gs.apples = [⟨8, 8⟩] ∧ r.gs.apples ≠ r'.gs.apples := by
  refine ⟨flagged_state_same, by decide, ?_⟩
  simp [move_snake, set_direction, RIGHT, start_state, flagged_state, grid_step, finish_step,
    move_head, int_add, int_sub, INT_MAX, INT_MIN, wrap_head, shift_body, snake_eats_apple,
    same_cell, eat_apple, grow_snake, remove_apple_at_head, spawn_random_apple, spawn_pick,
    grid_read, GetRandomValue, snake_collides_with_body, grid_write, in_grid, GRID_WIDTH_eq,
    GRID_HEIGHT_eq, bind, Except.bind, pure, Except.pure, grid_upd_apply,
    cleared_grid, Cell.set_snake, Cell.set_body, Cell.set_apple, shift_loop]


theorem snake_ext (s s' : Snake) (h1 : s.head = s'.head) (h2 : s.body = s'.body)
    (h3 : s.direction = s'.direction) : s = s' := by
  cases s; cases s'
  simp only at h1 h2 h3
  rw [h1, h2, h3]

theorem grid_write_in (g g' : Grid) (x y : Int) (f : Cell → Cell)
    (h : grid_write g x y f = .ok g') : in_grid x y := by
  unfold grid_write at h
  split_ifs at h with h1
  exact h1

theorem wrap_head_in_grid (h : IVector2) : in_grid (wrap_head h).x (wrap_head h).y := by
  rw [in_grid_iff]
  simp only [wrap_head, GRID_WIDTH_eq, GRID_HEIGHT_eq]
  refine ⟨?_, ?_, ?_, ?_⟩ <;> split_ifs <;> omega

/-- Whether `move_head` returns depends on the snake only, not on the grid. -/
theorem move_head_transfer (a b a1 : GameState) (hs : a.snake = b.snake)
    (h : move_head a = .ok a1) : ∃ b1, move_head b = .ok b1 := by
  unfold move_head at h
  simp only [bind_ok_iff, pure, Except.pure, Except.ok.injEq] at h
  obtain ⟨g1, h1, hx, h2, hy, h3, g2, h4, _⟩ := h
  have hin := grid_write_in _ _ _ _ _ h1
  rw [hs] at hin h2 h3
  unfold move_head
  simp only [grid_write_ok _ _ _ _ hin, h2, h3, grid_write_ok _ _ _ _ (wrap_head_in_grid _),
    bind, Except.bind, pure, Except.pure]
  exact ⟨_, rfl⟩

theorem move_head_snake (a b a1 b1 : GameState) (hs : a.snake = b.snake)
    (h : move_head a = .ok a1) (h' : move_head b = .ok b1) : a1.snake = b1.snake := by
  apply snake_ext
  · rw [move_head_head _ _ h, move_head_head _ _ h', hs]
  · rw [(move_head_frame _ _ h).1, (move_head_frame _ _ h').1, hs]
  · rw [(move_head_frame _ _ h).2.2.2.2, (move_head_frame _ _ h').2.2.2.2, hs]

/-- Whether `shift_body` returns depends on the snake only. -/
theorem shift_body_transfer (o : IVector2) (a b a2 : GameState) (hs : a.snake = b.snake)
    (h : shift_body o a = .ok a2) : ∃ b2, shift_body o b = .ok b2 := by
  unfold shift_body at h ⊢
  rw [← hs]
  split_ifs at h ⊢ with h1
  · simp only [bind_ok_iff, pure, Except.pure, Except.ok.injEq] at h
    obtain ⟨g, hg, _⟩ := h
    have hin := grid_write_in _ _ _ _ _ hg
    simp only [grid_write_ok _ _ _ _ hin, bind, Except.bind, pure, Except.pure]
    exact ⟨_, rfl⟩
  · exact ⟨_, rfl⟩

theorem shift_body_snake (o : IVector2) (a b a2 b2 : GameState) (hs : a.snake = b.snake)
    (h : shift_body o a = .ok a2) (h' : shift_body o b = .ok b2) : a2.snake = b2.snake := by
  obtain ⟨_, e2, _, _, _, e6⟩ := shift_body_frame _ _ _ h
  obtain ⟨_, e2', _, _, _, e6'⟩ := shift_body_frame _ _ _ h'
  apply snake_ext
  · rw [e2, e2', hs]
  · rw [shift_body_body _ _ _ h, shift_body_body _ _ _ h', hs]
  · rw [e6, e6', hs]

theorem grow_snake_snake (a b a1 b1 : GameState) (hs : a.snake = b.snake)
    (h : grow_snake a = .ok a1) (h' : grow_snake b = .ok b1) : a1.snake = b1.snake := by
  unfold grow_snake at h h'
  rw [← hs] at h'
  split_ifs at h h' with h1
  · simp only [bind_ok_iff, pure, Except.pure, Except.ok.injEq] at h h'
    obtain ⟨tx, e1, ty, e2, g, _, rfl⟩ := h
    obtain ⟨tx', e1', ty', e2', g', _, rfl⟩ := h'
    rw [e1] at e1'; rw [e2] at e2'
    simp only [Except.ok.injEq] at e1' e2'
    subst e1' e2'
    simp only [hs]
  · simp only [bind_ok_iff, pure, Except.pure, Except.ok.injEq] at h h'
    obtain ⟨g, _, rfl⟩ := h
    obtain ⟨g', _, rfl⟩ := h'
    simp only [hs]

/-- The snake and the score that the apple branch leaves depend on the snake
and the score it starts from, not on the grid or on the random values. -/
theorem eat_apple_snake (a b a3 b3 : GameState) (rng rng' ra rb : List Nat)
    (hs : a.snake = b.snake) (hsc : a.score = b.score)
    (h : eat_apple a rng = .ok (a3, ra)) (h' : eat_apple b rng' = .ok (b3, rb)) :
    a3.snake = b3.snake ∧ a3.score = b3.score := by
  have hscore := (eat_apple_frame _ _ _ _ h).2.2.1
  have hscore' := (eat_apple_frame _ _ _ _ h').2.2.1
  refine ⟨?_, by rw [hscore, hscore', hsc]⟩
  unfold eat_apple at h h'
  simp only [bind_ok_iff] at h h'
  obtain ⟨x1, h1, x2, h2, ⟨x3, r1⟩, h3, sc, _, h5⟩ := h
  obtain ⟨y1, h1', y2, h2', ⟨y3, r1'⟩, h3', sc', _, h5'⟩ := h'
  simp only [pure, Except.pure, Except.ok.injEq, Prod.mk.injEq] at h5 h5'
  obtain ⟨rfl, _⟩ := h5
  obtain ⟨rfl, _⟩ := h5'
  show x3.snake = y3.snake
  rw [(spawn_random_apple_frame _ _ _ _ h3).1, (spawn_random_apple_frame _ _ _ _ h3').1,
    (remove_apple_at_head_frame _ _ h2).1, (remove_apple_at_head_frame _ _ h2').1]
  exact grow_snake_snake _ _ _ _ hs h1 h1'

theorem eats_congr (a b : GameState) (hs : a.snake = b.snake) (ha : a.apples = b.apples) :
    snake_eats_apple a = snake_eats_apple b := by
  simp only [snake_eats_apple, hs, ha]

theorem collides_congr (a b : GameState) (hs : a.snake = b.snake) :
    snake_collides_with_body a = snake_collides_with_body b := by
  simp only [snake_collides_with_body, hs]


theorem set_direction_snake_congr (dir : Int) (a b : GameState) (hs : a.snake = b.snake) :
    (set_direction dir a).snake = (set_direction dir b).snake := by
  unfold set_direction
  split_ifs <;> simp only [hs]

/-- The stages of a gated call of `move_snake` that returns. -/
theorem move_snake_gated_inv (gs : GameState) (dir : Int) (t frame : ℚ) (rng : List Nat)
    (r : TickResult) (hg : t + frame ≥ gs.game_speed)
    (h : move_snake gs dir t frame rng = .ok r) :
    ∃ gs1 gs2 gs3 r1, move_head (set_direction dir gs) = .ok gs1 ∧
      shift_body gs.snake.head gs1 = .ok gs2 ∧
      (if snake_eats_apple gs2 then eat_apple gs2 rng else pure (gs2, rng)) = .ok (gs3, r1) ∧
      r.ateApple = snake_eats_apple gs2 ∧ r.collided = snake_collides_with_body gs3 ∧
      r.timer = 0 ∧ r.moved = true ∧
      ((snake_collides_with_body gs3 = false ∧ r.gs = gs3) ∨
        (snake_collides_with_body gs3 = true ∧
          ∃ rest, init_game_state r1 = .ok (r.gs, rest))) := by
  have hg' : t + frame ≥ (set_direction dir gs).game_speed := by
    rw [set_direction_speed]; exact hg
  simp only [move_snake, hg', if_true, grid_step, bind_ok_iff] at h
  obtain ⟨gs1, h1, h2⟩ := h
  rw [finish_step_eq] at h2
  simp only [bind_ok_iff] at h2
  obtain ⟨gs2, h3, ⟨gs3, r1⟩, h4, h5⟩ := h2
  obtain ⟨e1, e2, e3, e4, e5⟩ := collision_branch gs3 r1 _ r h5
  rw [set_direction_head] at h3
  exact ⟨gs1, gs2, gs3, r1, h1, h3, h4, e3, e4, e1, e2, e5⟩

/-- A gated call of `move_snake` put together from its stages, when the
landing cell holds no apple. -/
theorem move_snake_gated_no_apple (gs gs1 gs2 : GameState) (dir : Int) (t frame : ℚ)
    (rng : List Nat) (hg : t + frame ≥ gs.game_speed)
    (h1 : move_head (set_direction dir gs) = .ok gs1)
    (h2 : shift_body gs.snake.head gs1 = .ok gs2) (he : snake_eats_apple gs2 = false) :
    move_snake gs dir t frame rng =
      if snake_collides_with_body gs2 then
        reset_game gs2 rng >>= fun q => pure ⟨q.1, q.2.1, true, false, true⟩
      else pure ⟨gs2, 0, true, false, false⟩ := by
  have hg' : t + frame ≥ (set_direction dir gs).game_speed := by
    rw [set_direction_speed]; exact hg
  simp only [move_snake, hg', if_true, grid_step, h1, bind, Except.bind]
  rw [finish_step_eq, set_direction_head, h2]
  simp only [he, Bool.false_eq_true, if_false, bind, Except.bind, pure, Except.pure]

/-- A call of `move_snake` that consumes no apple does the same on two states
with the same snake, apples, score and `game_speed`, whatever their grids. -/
theorem move_snake_no_apple_congr (a b : GameState) (dir : Int) (t frame : ℚ)
    (rng : List Nat) (r : TickResult) (hs : a.snake = b.snake) (hap : a.apples = b.apples)
    (hsp : a.game_speed = b.game_speed) (hsc : a.score = b.score)
    (h : move_snake a dir t frame rng = .ok r) (hna : r.ateApple = false) :
    ∃ r', move_snake b dir t frame rng = .ok r' ∧ r'.gs.snake = r.gs.snake ∧
      r'.gs.apples = r.gs.apples ∧ r'.gs.score = r.gs.score ∧ r'.timer = r.timer ∧
      r'.collided = r.collided ∧ r'.ateApple = false ∧ r'.moved = r.moved := by
  by_cases hg : t + frame ≥ a.game_speed
  · obtain ⟨a1, a2, a3, r1, h1, h2, h3, e1, e2, e3, e4, e5⟩ :=
      move_snake_gated_inv a dir t frame rng r hg h
    rw [hna] at e1
    rw [← e1] at h3
    simp only [Bool.false_eq_true, if_false, pure, Except.pure, Except.ok.injEq,
      Prod.mk.injEq] at h3
    obtain ⟨rfl, rfl⟩ := h3
    have hs0 := set_direction_snake_congr dir a b hs
    obtain ⟨b1, hb1⟩ := move_head_transfer _ _ _ hs0 h1
    have hs1 := move_head_snake _ _ _ _ hs0 h1 hb1
    rw [hs] at h2
    obtain ⟨b2, hb2⟩ := shift_body_transfer _ _ _ _ hs1 h2
    have hs2 := shift_body_snake _ _ _ _ _ hs1 h2 hb2
    have hap2 : a2.apples = b2.apples := by
      rw [(shift_body_frame _ _ _ h2).2.2.1, (shift_body_frame _ _ _ hb2).2.2.1,
        (move_head_frame _ _ h1).2.1, (move_head_frame _ _ hb1).2.1,
        set_direction_apples, set_direction_apples, hap]
    have hsc2 : a2.score = b2.score := by
      rw [(shift_body_frame _ _ _ h2).2.2.2.1, (shift_body_frame _ _ _ hb2).2.2.2.1,
        (move_head_frame _ _ h1).2.2.1, (move_head_frame _ _ hb1).2.2.1,
        set_direction_score, set_direction_score, hsc]
    have heb : snake_eats_apple b2 = false := by
      rw [← eats_congr _ _ hs2 hap2]; exact e1.symm
    have hgb : t + frame ≥ b.game_speed := by rw [← hsp]; exact hg
    have hstep := move_snake_gated_no_apple b b1 b2 dir t frame rng hgb hb1 hb2 heb
    rw [← collides_congr _ _ hs2] at hstep
    rcases e5 with ⟨c1, c2⟩ | ⟨c1, rest, c2⟩
    · rw [c1] at hstep
      simp only [Bool.false_eq_true, if_false, pure, Except.pure] at hstep
      refine ⟨_, hstep, ?_, ?_, ?_, e3.symm, ?_, rfl, e4.symm⟩
      · rw [c2]; exact hs2.symm
      · rw [c2]; exact hap2.symm
      · rw [c2]; exact hsc2.symm
      · rw [e2, c1]
    · rw [c1] at hstep
      simp only [if_true, reset_game, c2, bind, Except.bind, pure, Except.pure] at hstep
      refine ⟨_, hstep, rfl, rfl, rfl, e3.symm, ?_, rfl, e4.symm⟩
      rw [e2, c1]
  · have hlt : t + frame < a.game_speed := lt_of_not_ge hg
    rw [move_snake_below a dir t frame rng hlt] at h
    simp only [Except.ok.injEq] at h
    subst h
    refine ⟨_, move_snake_below b dir t frame rng (by rw [← hsp]; exact hlt), ?_, ?_, ?_,
      rfl, rfl, rfl, rfl⟩
    · exact (set_direction_snake_congr dir a b hs).symm
    · show (set_direction dir b).apples = (set_direction dir a).apples
      rw [set_direction_apples, set_direction_apples, hap]
    · show (set_direction dir b).score = (set_direction dir a).score
      rw [set_direction_score, set_direction_score, hsc]

/-- Two calls of `move_snake` that return without reset leave the same snake
and score on two states with the same snake, apples, score and `game_speed`,
whatever their grids and random values. -/
theorem move_snake_snake_congr (a b : GameState) (dir : Int) (t frame : ℚ)
    (rng rng' : List Nat) (r r' : TickResult) (hs : a.snake = b.snake)
    (hap : a.apples = b.apples) (hsp : a.game_speed = b.game_speed) (hsc : a.score = b.score)
    (h : move_snake a dir t frame rng = .ok r) (h' : move_snake b dir t frame rng' = .ok r')
    (hc : r.collided = false) :
    r'.gs.snake = r.gs.snake ∧ r'.gs.score = r.gs.score ∧ r'.collided = false ∧
      r'.ateApple = r.ateApple ∧ r'.timer = r.timer := by
  by_cases hg : t + frame ≥ a.game_speed
  · have hgb : t + frame ≥ b.game_speed := by rw [← hsp]; exact hg
    obtain ⟨a1, a2, a3, ra, h1, h2, h3, e1, e2, e3, _, e5⟩ :=
      move_snake_gated_inv a dir t frame rng r hg h
    obtain ⟨b1, b2, b3, rb, k1, k2, k3, f1, f2, f3, _, f5⟩ :=
      move_snake_gated_inv b dir t frame rng' r' hgb h'
    have hs0 := set_direction_snake_congr dir a b hs
    have hs1 := move_head_snake _ _ _ _ hs0 h1 k1
    rw [hs] at h2
    have hs2 := shift_body_snake _ _ _ _ _ hs1 h2 k2
    have hap2 : a2.apples = b2.apples := by
      rw [(shift_body_frame _ _ _ h2).2.2.1, (shift_body_frame _ _ _ k2).2.2.1,
        (move_head_frame _ _ h1).2.1, (move_head_frame _ _ k1).2.1,
        set_direction_apples, set_direction_apples, hap]
    have hsc2 : a2.score = b2.score := by
      rw [(shift_body_frame _ _ _ h2).2.2.2.1, (shift_body_frame _ _ _ k2).2.2.2.1,
        (move_head_frame _ _ h1).2.2.1, (move_head_frame _ _ k1).2.2.1,
        set_direction_score, set_direction_score, hsc]
    have he := eats_congr _ _ hs2 hap2
    have h33 : a3.snake = b3.snake ∧ a3.score = b3.score := by
      rw [← he] at k3
      split_ifs at h3 k3 with hq
      · exact eat_apple_snake _ _ _ _ _ _ _ _ hs2 hsc2 h3 k3
      · simp only [pure, Except.pure, Except.ok.injEq, Prod.mk.injEq] at h3 k3
        rw [← h3.1, ← k3.1]; exact ⟨hs2, hsc2⟩
    have hcc := collides_congr _ _ h33.1
    rw [hc] at e2
    rcases e5 with ⟨c1, c2⟩ | ⟨c1, _⟩
    · rcases f5 with ⟨d1, d2⟩ | ⟨d1, _⟩
      · refine ⟨?_, ?_, by rw [f2, d1], by rw [f1, e1, he], by rw [f3, e3]⟩
        · rw [c2, d2]; exact h33.1.symm
        · rw [c2, d2]; exact h33.2.symm
      · rw [← hcc, c1] at d1; exact absurd d1 (by simp)
    · rw [c1] at e2; exact absurd e2 (by simp)
  · have hlt : t + frame < a.game_speed := lt_of_not_ge hg
    rw [move_snake_below a dir t frame rng hlt] at h
    rw [move_snake_below b dir t frame rng' (by rw [← hsp]; exact hlt)] at h'
    simp only [Except.ok.injEq] at h h'
    subst h h'
    refine ⟨(set_direction_snake_congr dir a b hs).symm, ?_, rfl, rfl, rfl⟩
    show (set_direction dir b).score = (set_direction dir a).score
    rw [set_direction_score, set_direction_score, hsc]


/-- C15 (amended): take two states that are equal except for `has_body`
flags on cells that are not in the body list, and run the same `move_snake`
tick (same command, same frame time, same random values) on both.  When the
first call returns and consumes no apple, the second returns too, with the
same head, body list, apple list and score (the same timer and the same
collision outcome).  When the tick consumes an apple and both calls return
without reset, they leave the same head, body list and score; the apple
list can differ, because `spawn_random_apple` rejects cells whose `has_body`
flag is set. -/
theorem C15_body_flags_matter_only_in_spawn (a b : GameState) (dir : Int) (t frame : ℚ)
    (rng : List Nat) (hab : same_but_stale_body a b) :
    (∀ r, move_snake a dir t frame rng = .ok r → r.ateApple = false →
      ∃ r', move_snake b dir t frame rng = .ok r' ∧ r'.gs.snake.head = r.gs.snake.head ∧
        r'.gs.snake.body = r.gs.snake.body ∧ r'.gs.apples = r.gs.apples ∧
        r'.gs.score = r.gs.score ∧ r'.timer = r.timer ∧ r'.collided = r.collided ∧
        r'.ateApple = false) ∧
    (∀ r r', move_snake a dir t frame rng = .ok r → move_snake b dir t frame rng = .ok r' →
      r.collided = false →
      r'.gs.snake.head = r.gs.snake.head ∧ r'.gs.snake.body = r.gs.snake.body ∧
        r'.gs.score = r.gs.score ∧ r'.collided = false ∧ r'.ateApple = r.ateApple) := by
  obtain ⟨hs, hap, hsp, hsc, _⟩ := hab
  constructor
  · intro r hr hna
    obtain ⟨r', h1, h2, h3, h4, h5, h6, h7, _⟩ :=
      move_snake_no_apple_congr a b dir t frame rng r hs hap hsp hsc hr hna
    exact ⟨r', h1, by rw [h2], by rw [h2], h3, h4, h5, h6, h7⟩
  · intro r r' hr hr' hc
    obtain ⟨h1, h2, h3, h4, _⟩ :=
      move_snake_snake_congr a b dir t frame rng rng r r' hs hap hsp hsc hr hr' hc
    exact ⟨by rw [h1], by rw [h1], h2, h3, h4⟩

theorem C15_witness :
    same_but_stale_body start_state flagged_state ∧
    ∃ r', move_snake flagged_state UP 0 (1 / 5) [] = .ok r' ∧
      r'.gs.snake.head = (moved_state (set_direction UP start_state)).snake.head ∧
      r'.gs.snake.body = (moved_state (set_direction UP start_state)).snake.body ∧
      r'.gs.apples = (moved_state (set_direction UP start_state)).apples ∧
      r'.gs.score = (moved_state (set_direction UP start_state)).score ∧
      r'.timer = 0 ∧ r'.collided = false ∧ r'.ateApple = false :=
  have hw : WellFormed start_state := ⟨by decide, by decide, by decide, by decide⟩
  ⟨flagged_state_same,
    (C15_body_flags_matter_only_in_spawn start_state flagged_state UP 0 (1 / 5) []
      flagged_state_same).1 ⟨moved_state (set_direction UP start_state), 0, true, false, false⟩
      (move_snake_plain_step start_state UP 0 (1 / 5) [] hw (by norm_num [start_state])
        (by decide) (by decide)) rfl⟩

end CSnake
